import Mathlib

/-! Procrastination Watcher: the analyzer, the session manager and the activity checker.

A shallow embedding of `src/utils/chromeAI.js`, `src/utils/storage.js` and
`src/background/service-worker.js`.

Conventions of the embedding.

* A JavaScript string is a Lean `String`; the built-in string operations the code calls
  (`trim`, `replace` with the pattern of the source, `indexOf`, `lastIndexOf`, `substring`)
  are functions on its list of characters.  Every character these operations test for is in
  the Basic Multilingual Plane, and positions are only ever passed from `indexOf` /
  `lastIndexOf` to `substring`, so counting characters instead of UTF-16 code units selects
  the same text.
* A thrown `Error` is the `Except.error` of its `message`.
* `await` is sequencing: a promise that rejects is an `Except.error`.
* What the host (browser) answers is a field of a host record; what the code does to the
  host is the list of calls of its outcome.
-/

deriving instance DecidableEq for Except

namespace ProcrastinationWatcher

/-! ## String primitives of the host language -/

/-- ECMAScript `WhiteSpace` and `LineTerminator` code points: what `String.prototype.trim`
removes and what the regular-expression class `\s` matches. -/
def isJsSpace (c : Char) : Bool :=
  let n := c.toNat
  n == 0x9 || n == 0xA || n == 0xB || n == 0xC || n == 0xD || n == 0x20 || n == 0xA0 ||
  n == 0x1680 || (0x2000 ≤ n && n ≤ 0x200A) || n == 0x2028 || n == 0x2029 || n == 0x202F ||
  n == 0x205F || n == 0x3000 || n == 0xFEFF

/-- `String.prototype.trim`: white space removed from both ends. -/
def trim (s : List Char) : List Char :=
  ((s.dropWhile isJsSpace).reverse.dropWhile isJsSpace).reverse

/-- The scan behind `replace(/```\s*/g, '')`, with a bound on the number of steps: at each
position, three backticks and all the white space after them are a match and are dropped;
otherwise one character is kept and the scan moves one position on. -/
def stripFencesAux : Nat → List Char → List Char
  | 0, _ => []
  | _ + 1, [] => []
  | n + 1, c :: rest =>
    if c = '`' ∧ rest.take 2 = ['`', '`'] then
      stripFencesAux n ((rest.drop 2).dropWhile isJsSpace)
    else
      c :: stripFencesAux n rest

/-- `cleaned.replace(/```\s*/g, '')`.  Each step of the scan consumes at least one character,
so the length of the text bounds the number of steps. -/
def stripFences (s : List Char) : List Char :=
  stripFencesAux s.length s

/-- `String.prototype.indexOf` for a one-character needle: the first position, or `-1`. -/
def indexOf (c : Char) (s : List Char) : Int :=
  if c ∈ s then (s.indexOf c : Int) else -1

/-- `String.prototype.lastIndexOf` for a one-character needle: the last position, or `-1`. -/
def lastIndexOf (c : Char) (s : List Char) : Int :=
  if c ∈ s then (s.length : Int) - 1 - (s.reverse.indexOf c : Int) else -1

/-- `String.prototype.substring(a, b)`: both arguments are clamped to `[0, length]`, swapped
when out of order, and the characters from the lower (inclusive) to the upper (exclusive)
position are returned. -/
def substring (s : List Char) (a b : Int) : List Char :=
  let len : Int := s.length
  let a1 := min (max a 0) len
  let b1 := min (max b 0) len
  let lo := min a1 b1
  let hi := max a1 b1
  (s.drop lo.toNat).take (hi.toNat - lo.toNat)

/-! ## `sanitizeJSON` (chromeAI.js, lines 157-176) -/

/-- The body of `sanitizeJSON` after the emptiness guard, on the characters of the reply. -/
def sanitizeChars (rawText : List Char) : List Char :=
  let cleaned := trim rawText
  let cleaned := stripFences cleaned
  let firstBrace := indexOf '{' cleaned
  let lastBrace := lastIndexOf '}' cleaned
  if firstBrace ≠ -1 ∧ lastBrace > firstBrace then
    substring cleaned firstBrace (lastBrace + 1)
  else
    cleaned

/-- `sanitizeJSON(rawText)`: throws `Error('Empty AI response')` on a falsy (empty) reply,
otherwise trims, removes the fences and cuts from the first `{` to the last `}`. -/
def sanitizeJSON (rawText : String) : Except String String :=
  if rawText.data = [] then
    .error "Empty AI response"
  else
    .ok ⟨sanitizeChars rawText.data⟩

/-- Whether the text contains three consecutive backticks. -/
def hasFence : List Char → Bool
  | [] => false
  | c :: rest => (c == '`' && rest.take 2 == ['`', '`']) || hasFence rest

/-- The extraction step of `sanitizeJSON` (lines 168-173) on its own: the text from the first
`{` to the last `}` when there is such a pair in that order, the text unchanged otherwise. -/
def cutBraces (cleaned : List Char) : List Char :=
  let firstBrace := indexOf '{' cleaned
  let lastBrace := lastIndexOf '}' cleaned
  if firstBrace ≠ -1 ∧ lastBrace > firstBrace then
    substring cleaned firstBrace (lastBrace + 1)
  else
    cleaned

/-- Whether the last character of the text is white space. -/
def endsWithSpace (s : List Char) : Bool :=
  match s.getLast? with
  | some c => isJsSpace c
  | none => false

/-- No white space at the front. -/
def NoLeadSpace (s : List Char) : Prop := ∀ c, s.head? = some c → isJsSpace c = false

/-- No white space at the end. -/
def NoTrailSpace (s : List Char) : Prop := ∀ c, s.getLast? = some c → isJsSpace c = false

/-! ## Values of the host language -/

/-- A value produced by `JSON.parse`.  A number is the double that `JSON.parse` made of the
literal, not the literal: `num mantissa exponent` is the exact value
`mantissa * 10 ^ exponent` of a finite double (every finite double is such a decimal), so a
literal that underflows, like `1e-400`, is `num 0 0`, and both zeros have mantissa `0`;
`infinity` is the double of a literal too large for a double.  The members of an object have
distinct names. -/
inductive Json where
  | null
  | bool (b : Bool)
  | num (mantissa : Int) (exponent : Int)
  | infinity (negative : Bool)
  | str (s : String)
  | arr (items : List Json)
  | obj (members : List (String × Json))

/-- Reading a property that is not a built-in one, as in `analysis.onTrack`: a `TypeError` on
`null`, the member of that name on an object, `undefined` (`none`) otherwise. -/
def Json.getProp (v : Json) (key : String) : Except String (Option Json) :=
  match v with
  | .null => .error ("Cannot read properties of null (reading '" ++ key ++ "')")
  | .obj members => .ok (members.lookup key)
  | _ => .ok none

/-- Truthiness of a value that may be `undefined` (`none`), as tested by `? :`: `undefined`,
`null`, `false`, a double equal to zero and the empty string are falsy, every other value is
truthy. -/
def truthy : Option Json → Bool
  | none => false
  | some .null => false
  | some (.bool b) => b
  | some (.num mantissa _) => mantissa != 0
  | some (.infinity _) => true
  | some (.str s) => s != ""
  | some (.arr _) => true
  | some (.obj _) => true

/-- The data URL of a screenshot decoded into a binary payload. -/
structure Blob where
  bytes : String
deriving DecidableEq

/-! ## The host: the on-device model -/

/-- A session of the on-device model: what `prompt` answers to a text and an image, and
whether `destroy()` completes or throws. -/
structure Session where
  id : Nat
  prompt : String → Blob → Except String String
  destroy : Except String Unit

/-- One call of `LanguageModel.availability()`: the value it resolves to or the error it
rejects with, and whether it settles before the 5 second timer of `checkAvailability`. -/
structure Probe where
  outcome : Except String String
  settlesBeforeTimeout : Bool

/-- The `LanguageModel` object of the host.  `availability = none` stands for a property
that is not a function. -/
structure LanguageModel where
  availability : Option Probe
  create : Except String Session

/-! ## The host: storage, tabs, notifications -/

/-- The `GoalAlert` record written by the popup under the key `activeAlert`. -/
structure GoalAlert where
  goal : String
  enabled : Bool
  startedAt : Nat
deriving DecidableEq

/-- The tab returned by `chrome.tabs.query`. -/
structure Tab where
  url : String
  title : String
deriving DecidableEq

/-- The options object passed to `chrome.notifications.create`; the error notification sets
neither `priority` nor `requireInteraction`. -/
structure NotificationOptions where
  type : String
  iconUrl : String
  title : String
  message : String
  priority : Option Nat
  requireInteraction : Option Bool
deriving DecidableEq

/-- The options object passed to `self.registration.showNotification`. -/
structure ShowOptions where
  body : String
  icon : String
  requireInteraction : Bool
deriving DecidableEq

/-- The arguments of `analyzeActivity`. -/
structure AnalyzeParams where
  userGoal : String
  tabUrl : String
  tabTitle : String
  screenshot : Blob
deriving DecidableEq

/-- A call made to the host or, for `analyzeActivity`, from the checker into the analyzer. -/
inductive Call where
  | storageGet (key : String)
  | tabsQuery
  | captureVisibleTab
  | fetch (dataUrl : String)
  | analyzeActivity (params : AnalyzeParams)
  | availability
  | create
  | prompt (sessionId : Nat) (text : String) (image : Blob)
  | destroy (sessionId : Nat)
  | notificationsCreate (id : Option String) (options : NotificationOptions)
  | showNotification (title : String) (options : ShowOptions)
deriving DecidableEq

/-- What the browser answers to the calls of the extension during one run. -/
structure Host where
  globalLanguageModel : Option LanguageModel
  originTrialLanguageModel : Option LanguageModel
  jsonParse : String → Except String Json
  toStringOther : Json → String
  storageGetActiveAlert : Except String (Option GoalAlert)
  tabsQuery : Except String (Option Tab)
  captureVisibleTab : Except String String
  fetchBlob : String → Except String Blob
  notificationsCreate : String → NotificationOptions → Except String String
  getURL : String → String
  now : Nat

/-- Conversion to a string inside a template literal.  A string is itself; numbers and arrays
are formatted by the host (`toStringOther`). -/
def toStr (host : Host) : Option Json → String
  | none => "undefined"
  | some (.str s) => s
  | some .null => "null"
  | some (.bool b) => if b then "true" else "false"
  | some (.obj _) => "[object Object]"
  | some v => host.toStringOther v

/-! ## Module state and asynchronous code -/

/-- How a run of an `async` function ends: its result (a value, or the message of the error
it rejects with), the module variable `session` of `chromeAI.js` afterwards, and the calls
it made, in order. -/
structure Outcome (α : Type) where
  result : Except String α
  session : Option Session
  calls : List Call

/-- An `async` function: from the value of the module variable `session` before the run to
the outcome of the run. -/
def Js (α : Type) : Type := Option Session → Outcome α

instance : Monad Js where
  pure a := fun session => { result := .ok a, session := session, calls := [] }
  bind m f := fun session =>
    let first := m session
    match first.result with
    | .ok a =>
      let second := f a first.session
      { result := second.result, session := second.session,
        calls := first.calls ++ second.calls }
    | .error e => { result := .error e, session := first.session, calls := first.calls }

/-- `throw new Error(message)`. -/
def jsThrow {α : Type} (message : String) : Js α := fun session =>
  { result := .error message, session := session, calls := [] }

/-- `try { body } catch (error) { handler }`. -/
def jsTry {α : Type} (body : Js α) (handler : String → Js α) : Js α := fun session =>
  let tried := body session
  match tried.result with
  | .ok a => { result := .ok a, session := tried.session, calls := tried.calls }
  | .error e =>
    let handled := handler e tried.session
    { result := handled.result, session := handled.session,
      calls := tried.calls ++ handled.calls }

/-- Awaiting a host call: the call is recorded and its answer is the result. -/
def hostCall {α : Type} (call : Call) (answer : Except String α) : Js α := fun session =>
  { result := answer, session := session, calls := [call] }

/-- A host call whose promise is not awaited: the call is recorded, its answer is dropped. -/
def hostCallDetached (call : Call) : Js Unit := fun session =>
  { result := .ok (), session := session, calls := [call] }

/-- Entering a function of the extension whose calls are counted (`analyzeActivity`). -/
def enterCall (call : Call) : Js Unit := fun session =>
  { result := .ok (), session := session, calls := [call] }

/-- A computation without host calls that may throw. -/
def ofExcept {α : Type} (r : Except String α) : Js α := fun session =>
  { result := r, session := session, calls := [] }

/-- Reading the module variable `session`. -/
def getSession : Js (Option Session) := fun session =>
  { result := .ok session, session := session, calls := [] }

/-- Assigning the module variable `session`. -/
def setSession (s : Option Session) : Js Unit := fun _ =>
  { result := .ok (), session := s, calls := [] }

/-! ## `chromeAI.js` -/

/-- `getLanguageModel()`: `globalThis.LanguageModel` when present, otherwise
`chrome.aiOriginTrial.languageModel` when present, otherwise `null`. -/
def getLanguageModel (host : Host) : Option LanguageModel :=
  match host.globalLanguageModel with
  | some lm => some lm
  | none =>
    match host.originTrialLanguageModel with
    | some lm => some lm
    | none => none

/-- The record returned by `checkAvailability`. -/
structure AvailabilityResult where
  available : Bool
  status : String
  detail : Option String
  error : Option String
deriving DecidableEq

/-- `Promise.race([availabilityPromise, timeoutPromise])`: the probe when it settles first,
the rejection of the 5 second timer otherwise. -/
def raceWithTimeout (probe : Probe) : Except String String :=
  if probe.settlesBeforeTimeout then probe.outcome else .error "Availability check timeout"

/-- `checkAvailability()` (lines 14-57). -/
def checkAvailability (host : Host) : Js AvailabilityResult :=
  jsTry
    (match getLanguageModel host with
      | none => pure { available := false, status := "no-api", detail := none, error := none }
      | some lm =>
        match lm.availability with
        | none =>
          pure { available := false, status := "error", detail := none,
                 error := some "LanguageModel.availability is not a function" }
        | some probe => do
          let availability ← hostCall .availability (raceWithTimeout probe)
          pure { available := availability != "unavailable", status := availability,
                 detail := none, error := none })
    (fun error =>
      pure { available := false, status := "error", detail := none,
             error := some (if error = "" then "Availability check failed" else error) })

/-- `available()` (lines 206-208). -/
def available (host : Host) : Js AvailabilityResult :=
  checkAvailability host

/-- `createSessionIfNeeded()` (lines 59-99).  The configuration object passed to `create` is
a constant of the source and does not appear in the model. -/
def createSessionIfNeeded (host : Host) : Js Session := do
  match (← getSession) with
  | some session => pure session
  | none =>
    match getLanguageModel host with
    | none => jsThrow "Chrome Built-in AI not available"
    | some lm =>
      match lm.availability with
      | none => jsThrow "LanguageModel.availability is not a function"
      | some probe =>
        let status ← hostCall .availability probe.outcome
        if status = "unavailable" then
          jsThrow "AI model unavailable on this device"
        else do
          let created ← hostCall .create lm.create
          setSession (some created)
          pure created

/-- `resetSession()` (lines 193-198): `destroy()` is called before the handle is cleared. -/
def resetSession : Js Unit := do
  match (← getSession) with
  | some session =>
    hostCall (.destroy session.id) session.destroy
    setSession none
  | none => pure ()

/-- The text part of the prompt built by `analyzeActivity` (lines 119-135). -/
def promptText (userGoal tabUrl tabTitle : String) : String :=
  "User's stated goal: \"" ++ userGoal ++ "\"\n\nCurrent activity:\n- URL: " ++ tabUrl ++
  "\n- Title: " ++ tabTitle ++
  "\n\nAnalyze if this activity aligns with the goal. Consider:\n" ++
  "- Is the content relevant to the goal?\n" ++
  "- Could this be legitimate work/research?\n" ++
  "- Or is this clear procrastination?\n\n" ++
  "Return ONLY JSON:\n\x7b\n  \"onTrack\": true/false,\n  \"confidence\": 0-100,\n" ++
  "  \"reason\": \"brief explanation (max 60 chars)\"\n\x7d"

/-- `analyzeActivity({ userGoal, tabUrl, tabTitle, screenshot })` (lines 110-155). -/
def analyzeActivity (host : Host) (params : AnalyzeParams) : Js Json := do
  let s ← createSessionIfNeeded host
  let prompt := promptText params.userGoal params.tabUrl params.tabTitle
  jsTry
    (do
      let result ← hostCall (.prompt s.id prompt params.screenshot)
        (s.prompt prompt params.screenshot)
      let cleaned ← ofExcept (sanitizeJSON result)
      resetSession
      ofExcept (host.jsonParse cleaned))
    (fun error => do
      resetSession
      jsThrow error)

/-! ## `storage.js` -/

/-- `getActiveAlert()` (lines 3-6): the stored record, or `null` when there is none. -/
def getActiveAlert (host : Host) : Js (Option GoalAlert) :=
  hostCall (.storageGet "activeAlert") host.storageGetActiveAlert

/-! ## `service-worker.js` -/

/-- `dataUrlToBlob(dataUrl)` (lines 115-118). -/
def dataUrlToBlob (host : Host) (dataUrl : String) : Js Blob :=
  hostCall (.fetch dataUrl) (host.fetchBlob dataUrl)

/-- The options object of the notification sent from the `catch` block (lines 105-110). -/
def errorNotification (host : Host) (message : String) : NotificationOptions :=
  { type := "basic", iconUrl := host.getURL "icon.png", title := "❌ Watcher Error",
    message := "Error: " ++ message, priority := none, requireInteraction := none }

/-- The options object built from the verdict (lines 71-80). -/
def verdictNotification (host : Host) (goal : String) (onTrack reason : Option Json) :
    NotificationOptions :=
  { type := "basic"
    iconUrl := host.getURL "icon.png"
    title := if truthy onTrack then "✅ On Track!" else "⚠️ Procrastination Detected"
    message :=
      if truthy onTrack then
        "Great job! Keep working on: \"" ++ goal ++ "\"\n\n" ++ toStr host reason
      else
        "You said you'd: \"" ++ goal ++ "\"\n\n" ++ toStr host reason
    priority := some 2
    requireInteraction := some true }

/-- The body of the `try` block of `checkUserActivity` (lines 29-99). -/
def checkUserActivityBody (host : Host) : Js Unit := do
  let alert ← getActiveAlert host
  match alert with
  | none => pure ()
  | some alert =>
    if !alert.enabled then
      pure ()
    else do
      let tab ← hostCall .tabsQuery host.tabsQuery
      match tab with
      | none => pure ()
      | some tab =>
        let screenshotDataUrl ← hostCall .captureVisibleTab host.captureVisibleTab
        let blob ← dataUrlToBlob host screenshotDataUrl
        let params : AnalyzeParams :=
          { userGoal := alert.goal, tabUrl := tab.url, tabTitle := tab.title, screenshot := blob }
        enterCall (.analyzeActivity params)
        let analysis ← analyzeActivity host params
        let onTrack ← ofExcept (analysis.getProp "onTrack")
        let reason ← ofExcept (analysis.getProp "reason")
        let notificationOptions := verdictNotification host alert.goal onTrack reason
        let id := "watcher_" ++ toString host.now
        let notificationId ← hostCall (.notificationsCreate (some id) notificationOptions)
          (host.notificationsCreate id notificationOptions)
        if notificationId = "" then
          hostCallDetached (.showNotification notificationOptions.title
            { body := notificationOptions.message, icon := notificationOptions.iconUrl,
              requireInteraction := true })
        else
          pure ()

/-- `checkUserActivity()` (lines 25-112): the body, and in the `catch` block one error
notification whose creation is not awaited. -/
def checkUserActivity (host : Host) : Js Unit :=
  jsTry (checkUserActivityBody host)
    (fun error => hostCallDetached (.notificationsCreate none (errorNotification host error)))

/-- A sequence of calls of `createSessionIfNeeded` with no `resetSession` in between in which
every call completes before the next one starts, one call for each element of `hosts` (what
the browser answers at that call); a call that fails does not stop the sequence.  The result
is the handle after the last call and the calls made to the host by the whole sequence.
Calls that overlap are the subject of `runSchedule`. -/
def createSessionRepeatedly : List Host → Option Session → Option Session × List Call
  | [], session => (session, [])
  | host :: rest, session =>
    let first := createSessionIfNeeded host session
    let later := createSessionRepeatedly rest first.session
    (later.1, first.calls ++ later.2)

/-! ## Calls of `createSessionIfNeeded` that overlap -/

/-- Where one call of `createSessionIfNeeded` stands: not started, suspended at
`await LanguageModel.availability()` (line 68), suspended at `await LanguageModel.create(...)`
(line 74), or finished with its result. -/
inductive CreatePhase where
  | notStarted
  | awaitingAvailability (lm : LanguageModel) (probe : Probe)
  | awaitingCreate (lm : LanguageModel)
  | finished (result : Except String Session)

/-- One uninterrupted stretch of a call of `createSessionIfNeeded` (lines 59-99): from the
call to the first `await`, from one `await` to the next, or from the last `await` to the
`return`.  `availability()` is called in the first stretch, `create(...)` in the second, and
the handle is assigned in the third.  The result is the phase the call is in afterwards, the
handle afterwards and the calls made to the host in this stretch. -/
def createSessionStep (host : Host) (phase : CreatePhase) (session : Option Session) :
    CreatePhase × Option Session × List Call :=
  match phase with
  | .notStarted =>
    match session with
    | some live => (.finished (.ok live), session, [])
    | none =>
      match getLanguageModel host with
      | none => (.finished (.error "Chrome Built-in AI not available"), session, [])
      | some lm =>
        match lm.availability with
        | none =>
          (.finished (.error "LanguageModel.availability is not a function"), session, [])
        | some probe => (.awaitingAvailability lm probe, session, [.availability])
  | .awaitingAvailability lm probe =>
    match probe.outcome with
    | .error e => (.finished (.error e), session, [])
    | .ok status =>
      if status = "unavailable" then
        (.finished (.error "AI model unavailable on this device"), session, [])
      else
        (.awaitingCreate lm, session, [.create])
  | .awaitingCreate lm =>
    match lm.create with
    | .error e => (.finished (.error e), session, [])
    | .ok created => (.finished (.ok created), some created, [])
  | .finished result => (.finished result, session, [])

/-- Several calls of `createSessionIfNeeded` in flight on the one event loop of the service
worker: the phase of each call, the handle they share, and the calls made to the host so
far. -/
structure InFlight where
  phases : List CreatePhase
  session : Option Session
  calls : List Call

/-- The event loop lets the call at position `i` run its next stretch. -/
def advance (host : Host) (i : Nat) (state : InFlight) : InFlight :=
  match state.phases.get? i with
  | none => state
  | some phase =>
    { phases := state.phases.set i (createSessionStep host phase state.session).1
      session := (createSessionStep host phase state.session).2.1
      calls := state.calls ++ (createSessionStep host phase state.session).2.2 }

/-- The event loop runs the stretches in the order of `schedule`, a list of positions. -/
def runSchedule (host : Host) : List Nat → InFlight → InFlight
  | [], state => state
  | i :: rest, state => runSchedule host rest (advance host i state)

/-- Whether the call has finished with a session. -/
def CreatePhase.returnedSession : CreatePhase → Bool
  | .finished (.ok _) => true
  | _ => false

/-! ## The store and the scheduler of the browser -/

/-- The `WatcherSettings` record written under the key `settings`. -/
structure WatcherSettings where
  checkInterval : Nat
  enabled : Bool
deriving DecidableEq

/-- An alarm registered with `chrome.alarms`. -/
structure Alarm where
  name : String
  periodInMinutes : Nat
deriving DecidableEq

/-- The two records of `chrome.storage.local` and the registry of `chrome.alarms`, with a
store and a scheduler that carry out what they are asked. -/
structure Browser where
  activeAlert : Option GoalAlert
  settings : Option WatcherSettings
  alarms : List Alarm
deriving DecidableEq

/-- `setActiveAlert(alert)` (storage.js, lines 8-10). -/
def setActiveAlert (alert : GoalAlert) (browser : Browser) : Browser :=
  { browser with activeAlert := some alert }

/-- `clearActiveAlert()` (storage.js, lines 12-14). -/
def clearActiveAlert (browser : Browser) : Browser :=
  { browser with activeAlert := none }

/-- `getWatcherSettings()` (storage.js, lines 16-22): the stored record, or the default. -/
def getWatcherSettings (browser : Browser) : WatcherSettings :=
  match browser.settings with
  | some settings => settings
  | none => { checkInterval := 3, enabled := false }

/-- `setWatcherSettings(settings)` (storage.js, lines 24-26). -/
def setWatcherSettings (settings : WatcherSettings) (browser : Browser) : Browser :=
  { browser with settings := some settings }

/-- `chrome.alarms.clear(name)`: the alarm of that name, if any, is removed. -/
def alarmsClear (name : String) (browser : Browser) : Browser :=
  { browser with alarms := browser.alarms.filter (fun alarm => alarm.name != name) }

/-- `chrome.alarms.create(name, { periodInMinutes })`: an alarm of the same name is cancelled
and replaced. -/
def alarmsCreate (name : String) (periodInMinutes : Nat) (browser : Browser) : Browser :=
  { browser with
    alarms := browser.alarms.filter (fun alarm => alarm.name != name) ++
      [{ name := name, periodInMinutes := periodInMinutes }] }

/-- The alarms registered under a name. -/
def alarmsNamed (name : String) (browser : Browser) : List Alarm :=
  browser.alarms.filter (fun alarm => alarm.name == name)

/-! ## The message listener of `service-worker.js` (lines 121-169) -/

/-- A message sent with `chrome.runtime.sendMessage`; `interval = none` is a message without
that property. -/
structure Message where
  type : String
  interval : Option Nat
deriving DecidableEq

/-- The object passed to `sendResponse`. -/
structure Response where
  success : Bool
deriving DecidableEq

/-- The service worker and what it shares with the popup: the browser's store and scheduler,
the module variable `session`, the calls made so far and the responses sent so far. -/
structure Worker where
  browser : Browser
  session : Option Session
  calls : List Call
  responses : List Response

/-- The browser as `checkUserActivity` meets it when the store holds `browser.activeAlert`. -/
def hostWithStore (host : Host) (browser : Browser) : Host :=
  { host with storageGetActiveAlert := .ok browser.activeAlert }

/-- The branch for `START_WATCHING` (lines 125-147): `message.interval || 3`, the existing
alarm cleared, the new one created, one immediate check started, the response sent. -/
def onStartWatching (host : Host) (message : Message) (worker : Worker) : Worker :=
  let interval :=
    match message.interval with
    | some n => if n = 0 then 3 else n
    | none => 3
  let browser := alarmsClear "checkActivity" worker.browser
  let browser := alarmsCreate "checkActivity" interval browser
  let check := checkUserActivity (hostWithStore host browser) worker.session
  { browser := browser
    session := check.session
    calls := worker.calls ++ check.calls
    responses := worker.responses ++ [{ success := true }] }

/-- The branch for `STOP_WATCHING` (lines 150-154). -/
def onStopWatching (worker : Worker) : Worker :=
  { worker with
    browser := alarmsClear "checkActivity" worker.browser
    responses := worker.responses ++ [{ success := true }] }

/-- The branch for `TEST_NOTIFICATION` (lines 156-166). -/
def onTestNotification (host : Host) (worker : Worker) : Worker :=
  { worker with
    calls := worker.calls ++
      [.notificationsCreate none
        { type := "basic", iconUrl := host.getURL "icon.png", title := "Test Notification",
          message := "If you see this, notifications are working!", priority := some 2,
          requireInteraction := none }]
    responses := worker.responses ++ [{ success := true }] }

/-- The listener registered with `chrome.runtime.onMessage`: three tests of `message.type`
in a row. -/
def onMessage (host : Host) (message : Message) (worker : Worker) : Worker :=
  let worker :=
    if message.type = "START_WATCHING" then onStartWatching host message worker else worker
  let worker := if message.type = "STOP_WATCHING" then onStopWatching worker else worker
  let worker :=
    if message.type = "TEST_NOTIFICATION" then onTestNotification host worker else worker
  worker

/-! ## `Popup.jsx` (lines 34-64) -/

/-- The state of the popup component that the two handlers read and write. -/
structure Popup where
  goal : String
  interval : Nat
  activeAlert : Option GoalAlert
deriving DecidableEq

/-- `handleStartWatching()` (lines 34-54): nothing for a blank goal; otherwise the alert and
the settings are stored, the `START_WATCHING` message is sent to the listener and the popup
shows the alert. -/
def handleStartWatching (host : Host) (popup : Popup) (worker : Worker) : Popup × Worker :=
  if String.mk (trim popup.goal.data) = "" then
    (popup, worker)
  else
    let alert : GoalAlert :=
      { goal := String.mk (trim popup.goal.data), enabled := true, startedAt := host.now }
    let browser := setActiveAlert alert worker.browser
    let browser :=
      setWatcherSettings { checkInterval := popup.interval, enabled := true } browser
    let worker := onMessage host { type := "START_WATCHING", interval := some popup.interval }
      { worker with browser := browser }
    ({ popup with activeAlert := some alert }, worker)

/-- `handleStopWatching()` (lines 56-64). -/
def handleStopWatching (host : Host) (popup : Popup) (worker : Worker) : Popup × Worker :=
  let browser := clearActiveAlert worker.browser
  let browser :=
    setWatcherSettings { checkInterval := popup.interval, enabled := false } browser
  let worker := onMessage host { type := "STOP_WATCHING", interval := none }
    { worker with browser := browser }
  ({ popup with activeAlert := none, goal := "" }, worker)

/-! ## Predicates used in the statements -/

/-- Whether the decimal `mantissa * 10 ^ exponent` lies between 0 and 100. -/
def inPercentRange (mantissa exponent : Int) : Bool :=
  decide (0 ≤ mantissa) &&
  (if 0 ≤ exponent then decide (mantissa * 10 ^ exponent.toNat ≤ 100)
   else decide (mantissa ≤ 100 * 10 ^ (-exponent).toNat))

/-- The `AnalysisVerdict` of the specification's data model: an object with a boolean
`onTrack`, a `confidence` between 0 and 100 and a text `reason` of at most 60 characters. -/
def isAnalysisVerdict : Json → Bool
  | .obj members =>
    (match members.lookup "onTrack" with
      | some (.bool _) => true
      | _ => false) &&
    (match members.lookup "confidence" with
      | some (.num mantissa exponent) => inPercentRange mantissa exponent
      | _ => false) &&
    (match members.lookup "reason" with
      | some (.str reason) => decide (reason.length ≤ 60)
      | _ => false)
  | _ => false

/-- Whether the call is one that produces a notification, by either path. -/
def Call.isNotification : Call → Bool
  | .notificationsCreate _ _ => true
  | .showNotification _ _ => true
  | _ => false

/-- Whether the call is an `analyzeActivity` call. -/
def Call.isAnalyze : Call → Bool
  | .analyzeActivity _ => true
  | _ => false

/-- Whether the call goes to the on-device model or to one of its sessions. -/
def Call.isModelCall : Call → Bool
  | .availability => true
  | .create => true
  | .prompt _ _ _ => true
  | .destroy _ => true
  | _ => false

/-- The steps of `checkUserActivity`, in the order of the source. -/
inductive Step where
  | alertRead
  | tabQuery
  | capture
  | decode
  | analyze
  | notify
deriving DecidableEq

/-- The step of `checkUserActivity` that a call carries out, if any.  The verdict
notification is the one created with an identifier. -/
def Call.step : Call → Option Step
  | .storageGet _ => some .alertRead
  | .tabsQuery => some .tabQuery
  | .captureVisibleTab => some .capture
  | .fetch _ => some .decode
  | .analyzeActivity _ => some .analyze
  | .notificationsCreate (some _) _ => some .notify
  | _ => none

/-- The steps carried out by a list of calls, in order, with repetitions. -/
def stepsRun (calls : List Call) : List Step :=
  calls.filterMap Call.step

/-- The error notifications created by a list of calls: the option objects of the
`chrome.notifications.create` calls made without an identifier, as in the `catch` block. -/
def errorNotifications : List Call → List NotificationOptions
  | [] => []
  | .notificationsCreate none options :: rest => options :: errorNotifications rest
  | _ :: rest => errorNotifications rest

/-- A failure with message `m` raised at one of the six steps of `checkUserActivity`, the
steps before it having succeeded: the alert read, the tab query, the screen capture, the
decoding of the image, `analyzeActivity`, or the creation of the verdict notification.  The
last step has three places where it can fail: the read of `analysis.onTrack` and the read of
`analysis.reason` while the options object is built, and the call of
`chrome.notifications.create`. -/
inductive StepFails (host : Host) (session : Option Session) (m : String) : Prop where
  | alertRead (h : host.storageGetActiveAlert = .error m)
  | tabQuery (alert : GoalAlert) (halert : host.storageGetActiveAlert = .ok (some alert))
      (henabled : alert.enabled = true) (h : host.tabsQuery = .error m)
  | capture (alert : GoalAlert) (tab : Tab)
      (halert : host.storageGetActiveAlert = .ok (some alert)) (henabled : alert.enabled = true)
      (htab : host.tabsQuery = .ok (some tab)) (h : host.captureVisibleTab = .error m)
  | decode (alert : GoalAlert) (tab : Tab) (dataUrl : String)
      (halert : host.storageGetActiveAlert = .ok (some alert)) (henabled : alert.enabled = true)
      (htab : host.tabsQuery = .ok (some tab)) (hcapture : host.captureVisibleTab = .ok dataUrl)
      (h : host.fetchBlob dataUrl = .error m)
  | analyze (alert : GoalAlert) (tab : Tab) (dataUrl : String) (blob : Blob)
      (halert : host.storageGetActiveAlert = .ok (some alert)) (henabled : alert.enabled = true)
      (htab : host.tabsQuery = .ok (some tab)) (hcapture : host.captureVisibleTab = .ok dataUrl)
      (hdecode : host.fetchBlob dataUrl = .ok blob)
      (h : (analyzeActivity host
        { userGoal := alert.goal, tabUrl := tab.url, tabTitle := tab.title, screenshot := blob }
        session).result = .error m)
  | readOnTrack (alert : GoalAlert) (tab : Tab) (dataUrl : String) (blob : Blob)
      (analysis : Json)
      (halert : host.storageGetActiveAlert = .ok (some alert)) (henabled : alert.enabled = true)
      (htab : host.tabsQuery = .ok (some tab)) (hcapture : host.captureVisibleTab = .ok dataUrl)
      (hdecode : host.fetchBlob dataUrl = .ok blob)
      (hanalysis : (analyzeActivity host
        { userGoal := alert.goal, tabUrl := tab.url, tabTitle := tab.title, screenshot := blob }
        session).result = .ok analysis)
      (h : analysis.getProp "onTrack" = .error m)
  | readReason (alert : GoalAlert) (tab : Tab) (dataUrl : String) (blob : Blob)
      (analysis : Json) (onTrack : Option Json)
      (halert : host.storageGetActiveAlert = .ok (some alert)) (henabled : alert.enabled = true)
      (htab : host.tabsQuery = .ok (some tab)) (hcapture : host.captureVisibleTab = .ok dataUrl)
      (hdecode : host.fetchBlob dataUrl = .ok blob)
      (hanalysis : (analyzeActivity host
        { userGoal := alert.goal, tabUrl := tab.url, tabTitle := tab.title, screenshot := blob }
        session).result = .ok analysis)
      (honTrack : analysis.getProp "onTrack" = .ok onTrack)
      (h : analysis.getProp "reason" = .error m)
  | notify (alert : GoalAlert) (tab : Tab) (dataUrl : String) (blob : Blob) (analysis : Json)
      (onTrack reason : Option Json)
      (halert : host.storageGetActiveAlert = .ok (some alert)) (henabled : alert.enabled = true)
      (htab : host.tabsQuery = .ok (some tab)) (hcapture : host.captureVisibleTab = .ok dataUrl)
      (hdecode : host.fetchBlob dataUrl = .ok blob)
      (hanalysis : (analyzeActivity host
        { userGoal := alert.goal, tabUrl := tab.url, tabTitle := tab.title, screenshot := blob }
        session).result = .ok analysis)
      (honTrack : analysis.getProp "onTrack" = .ok onTrack)
      (hreason : analysis.getProp "reason" = .ok reason)
      (h : host.notificationsCreate ("watcher_" ++ toString host.now)
        (verdictNotification host alert.goal onTrack reason) = .error m)

/-- The values for which ECMAScript `ToBoolean` gives `false`, among those a property of a
parsed value can have: `undefined`, `null`, `false`, a double equal to zero, the empty
string. -/
def IsFalsy (v : Option Json) : Prop :=
  v = none ∨ v = some .null ∨ v = some (.bool false) ∨
  (∃ exponent, v = some (.num 0 exponent)) ∨ v = some (.str "")

/-- The verdict notifications created by a list of calls: the option objects of the
`chrome.notifications.create` calls made with an identifier. -/
def verdictNotifications : List Call → List NotificationOptions
  | [] => []
  | .notificationsCreate (some _) options :: rest => options :: verdictNotifications rest
  | _ :: rest => verdictNotifications rest

/-! ## Sample hosts -/

/-- A session that answers every prompt with `reply`. -/
def sampleSession (reply : Except String String) (destroy : Except String Unit) : Session :=
  { id := 1, prompt := fun _ _ => reply, destroy := destroy }

/-- A model object whose probe resolves to `status` in time and whose `create` gives
`session`. -/
def sampleModel (status : String) (session : Session) : LanguageModel :=
  { availability := some { outcome := .ok status, settlesBeforeTimeout := true },
    create := .ok session }

/-- The values of `JSON.parse` on the texts the sample hosts are run on: the empty object,
the off-track verdict of the specification's scenario, an on-track verdict, and `null`. -/
def sampleParse (text : String) : Except String Json :=
  if text = "\x7b\x7d" then
    .ok (.obj [])
  else if text = "\x7b\"onTrack\":false,\"confidence\":85,\"reason\":\"Off-topic video\"\x7d" then
    .ok (.obj [("onTrack", .bool false), ("confidence", .num 85 0),
      ("reason", .str "Off-topic video")])
  else if text = "\x7b\"onTrack\":true,\"confidence\":90,\"reason\":\"React tutorial\"\x7d" then
    .ok (.obj [("onTrack", .bool true), ("confidence", .num 90 0),
      ("reason", .str "React tutorial")])
  else if text = "null" then
    .ok .null
  else
    .error "Unexpected token"

/-- A browser with the given model object, in which the alert of the specification's
scenario is stored, a tab is active, and capture, decoding and notifications succeed. -/
def sampleHost (lm : Option LanguageModel) : Host :=
  { globalLanguageModel := lm
    originTrialLanguageModel := none
    jsonParse := sampleParse
    toStringOther := fun _ => ""
    storageGetActiveAlert := .ok (some { goal := "Study React", enabled := true, startedAt := 0 })
    tabsQuery := .ok (some { url := "https://youtube.com/watch?v=X", title := "Funny Cat" })
    captureVisibleTab := .ok "data:image/png;base64,AAAA"
    fetchBlob := fun _ => .ok { bytes := "AAAA" }
    notificationsCreate := fun id _ => .ok id
    getURL := fun path => "chrome-extension://watcher/" ++ path
    now := 0 }

/-- The sample browser with no model and the alert of the scenario stored as disabled. -/
def hostDisabledAlert : Host :=
  { sampleHost none with
    storageGetActiveAlert := .ok (some { goal := "Study React", enabled := false, startedAt := 0 }) }

/-- The sample browser with no model and a screen capture that is refused. -/
def hostCaptureRefused : Host :=
  { sampleHost none with captureVisibleTab := .error "permission denied" }

/-- The sample browser with a model that is available and answers with the empty object. -/
def hostAvailable : Host :=
  sampleHost (some (sampleModel "available" (sampleSession (.ok "\x7b\x7d") (.ok ()))))

/-- The sample browser with a model whose probe resolves to `unavailable`. -/
def hostUnavailable : Host :=
  sampleHost (some (sampleModel "unavailable" (sampleSession (.ok "\x7b\x7d") (.ok ()))))

/-- The sample browser with a model whose probe resolves to `available` and whose `create`
is rejected. -/
def hostCreateRejected : Host :=
  sampleHost (some
    { availability := some { outcome := .ok "available", settlesBeforeTimeout := true },
      create := .error "The session cannot be created" })

/-- The sample browser whose model answers with the verdict of the specification's
scenario. -/
def hostOffTrack : Host :=
  sampleHost (some (sampleModel "available" (sampleSession
    (.ok "\x7b\"onTrack\":false,\"confidence\":85,\"reason\":\"Off-topic video\"\x7d") (.ok ()))))

/-- The sample browser whose model answers with an on-track verdict. -/
def hostOnTrack : Host :=
  sampleHost (some (sampleModel "available" (sampleSession
    (.ok "\x7b\"onTrack\":true,\"confidence\":90,\"reason\":\"React tutorial\"\x7d") (.ok ()))))

/-- The sample browser whose model answers with the text `null`. -/
def hostNullReply : Host :=
  sampleHost (some (sampleModel "available" (sampleSession (.ok "null") (.ok ()))))

/-- A popup in which the goal of the scenario was typed and the interval 5 was chosen. -/
def samplePopup : Popup :=
  { goal := "  Study React ", interval := 5, activeAlert := none }

/-- A service worker that has done nothing yet, in a browser with an empty store and an
older alarm. -/
def sampleWorker : Worker :=
  { browser := { activeAlert := none, settings := none,
                 alarms := [{ name := "checkActivity", periodInMinutes := 3 }] }
    session := none
    calls := []
    responses := [] }

/-- The arguments of the specification's scenario. -/
def sampleParams : AnalyzeParams :=
  { userGoal := "Study React", tabUrl := "https://youtube.com/watch?v=X",
    tabTitle := "Funny Cat", screenshot := { bytes := "AAAA" } }

/-! # Theorems -/

/-! ## The fence scan -/

theorem dropWhile_length_le (p : Char → Bool) (s : List Char) :
    (s.dropWhile p).length ≤ s.length := by
  induction s with
  | nil => simp
  | cons c rest ih =>
    simp only [List.dropWhile_cons]
    split
    · simp only [List.length_cons]; omega
    · exact le_refl _

/-- More steps than characters change nothing. -/
theorem stripFencesAux_fuel (n : Nat) : ∀ (m : Nat) (s : List Char), s.length ≤ n → s.length ≤ m →
    stripFencesAux n s = stripFencesAux m s := by
  induction n with
  | zero =>
    intro m s hn _
    have hs : s = [] := List.length_eq_zero.mp (Nat.le_zero.mp hn)
    subst hs
    cases m <;> rfl
  | succ n ih =>
    intro m s hn hm
    cases s with
    | nil => cases m <;> rfl
    | cons c rest =>
      cases m with
      | zero => simp at hm
      | succ m =>
        simp only [List.length_cons, Nat.add_le_add_iff_right] at hn hm
        simp only [stripFencesAux]
        split
        · have h1 : ((rest.drop 2).dropWhile isJsSpace).length ≤ rest.length :=
            le_trans (dropWhile_length_le _ _) (by simp)
          exact ih m _ (le_trans h1 hn) (le_trans h1 hm)
        · rw [ih m rest hn hm]

theorem stripFences_nil : stripFences [] = [] := rfl

theorem stripFences_fence (rest : List Char) :
    stripFences ('`' :: '`' :: '`' :: rest) = stripFences (rest.dropWhile isJsSpace) := by
  have h1 : (rest.dropWhile isJsSpace).length ≤ rest.length + 2 :=
    le_trans (dropWhile_length_le _ _) (by omega)
  simp only [stripFences, List.length_cons, stripFencesAux, List.take_succ_cons, List.take_zero,
    List.drop_succ_cons, List.drop_zero, and_self, if_true]
  exact stripFencesAux_fuel _ _ _ h1 (le_refl _)

theorem stripFences_keep (c : Char) (rest : List Char)
    (h : ¬ (c = '`' ∧ rest.take 2 = ['`', '`'])) :
    stripFences (c :: rest) = c :: stripFences rest := by
  simp only [stripFences, List.length_cons, stripFencesAux, if_neg h]

theorem stripFences_of_noFence : ∀ s : List Char, hasFence s = false → stripFences s = s := by
  intro s
  induction s with
  | nil => intro _; rfl
  | cons c rest ih =>
    intro h
    simp only [hasFence, Bool.or_eq_false_iff, Bool.and_eq_false_imp, beq_iff_eq] at h
    have hk : ¬ (c = '`' ∧ rest.take 2 = ['`', '`']) := by
      rintro ⟨h1, h2⟩
      have := h.1 h1
      simp [h2] at this
    rw [stripFences_keep c rest hk, ih h.2]

/-- The scan never leaves two backticks at the front of a text that did not start with two. -/
theorem stripFencesAux_take_two (n : Nat) (s : List Char) (h : s.take 2 ≠ ['`', '`']) :
    (stripFencesAux n s).take 2 ≠ ['`', '`'] := by
  cases n with
  | zero => simp [stripFencesAux]
  | succ n =>
    cases s with
    | nil => simp [stripFencesAux]
    | cons c rest =>
      have hk : ¬ (c = '`' ∧ rest.take 2 = ['`', '`']) := by
        rintro ⟨h1, h2⟩
        apply h
        cases rest with
        | nil => simp at h2
        | cons d rest2 =>
          simp only [List.take_succ_cons, List.cons.injEq] at h2
          simp [h1, h2.1]
      simp only [stripFencesAux, if_neg hk]
      cases n with
      | zero => simp [stripFencesAux]
      | succ n =>
        cases rest with
        | nil => simp [stripFencesAux]
        | cons d rest2 =>
          have hcd : ¬ (c = '`' ∧ d = '`') := by
            rintro ⟨h1, h2⟩
            apply h
            simp [h1, h2]
          have hk2 : ¬ (d = '`' ∧ rest2.take 2 = ['`', '`']) ∨ c ≠ '`' := by
            by_cases hc : c = '`'
            · left
              rintro ⟨h1, _⟩
              exact hcd ⟨hc, h1⟩
            · right; exact hc
          rcases hk2 with hk2 | hc
          · simp only [stripFencesAux, if_neg hk2, List.take_succ_cons, List.take_zero, ne_eq,
              List.cons.injEq, and_true]
            exact hcd
          · intro hh
            have : (c :: stripFencesAux (n + 1) (d :: rest2)).head? = some '`' := by
              have h3 := congrArg List.head? hh
              simpa using h3
            simp at this
            exact hc this

/-- The text that leaves the fence scan contains no run of three backticks. -/
theorem hasFence_stripFencesAux (n : Nat) : ∀ s : List Char,
    hasFence (stripFencesAux n s) = false := by
  induction n with
  | zero => intro s; rfl
  | succ n ih =>
    intro s
    cases s with
    | nil => rfl
    | cons c rest =>
      simp only [stripFencesAux]
      split
      · exact ih _
      · rename_i hk
        simp only [hasFence, ih rest, Bool.or_false, Bool.and_eq_false_imp, beq_iff_eq]
        intro hc
        have h2 : rest.take 2 ≠ ['`', '`'] := fun h2 => hk ⟨hc, h2⟩
        have := stripFencesAux_take_two n rest h2
        simpa using this

theorem hasFence_stripFences (s : List Char) : hasFence (stripFences s) = false :=
  hasFence_stripFencesAux _ s

/-! ## Trimming -/

theorem dropWhile_append_cons (p : Char → Bool) (l t : List Char) (a : Char) (ha : p a = false) :
    (l ++ a :: t).dropWhile p = l.dropWhile p ++ a :: t := by
  induction l with
  | nil => simp [List.dropWhile_cons, ha]
  | cons c rest ih =>
    simp only [List.cons_append, List.dropWhile_cons]
    split
    · exact ih
    · rfl

/-- Trimming a text whose middle part starts and ends with characters that are not white
space only touches what stands before and after that part. -/
theorem trim_middle (p s q : List Char) (a b : Char) (ha : s.head? = some a)
    (hb : s.getLast? = some b) (hsa : isJsSpace a = false) (hsb : isJsSpace b = false) :
    trim (p ++ s ++ q) =
      p.dropWhile isJsSpace ++ s ++ (q.reverse.dropWhile isJsSpace).reverse := by
  obtain ⟨s1, hs1⟩ : ∃ s1, s = a :: s1 := by
    cases s with
    | nil => simp at ha
    | cons x xs => simp only [List.head?_cons, Option.some.injEq] at ha; exact ⟨xs, by rw [ha]⟩
  obtain ⟨s2, hs2⟩ : ∃ s2, s = s2 ++ [b] := by
    have hne : s ≠ [] := by rw [hs1]; simp
    refine ⟨s.dropLast, ?_⟩
    have h1 := List.dropLast_append_getLast hne
    rw [List.getLast?_eq_getLast _ hne, Option.some.injEq] at hb
    rw [hb] at h1
    exact h1.symm
  have step1 : (p ++ s ++ q).dropWhile isJsSpace = p.dropWhile isJsSpace ++ s ++ q := by
    rw [hs1]
    simp only [List.append_assoc, List.cons_append]
    exact dropWhile_append_cons _ _ _ _ hsa
  have step2 : (p.dropWhile isJsSpace ++ s ++ q).reverse.dropWhile isJsSpace =
      q.reverse.dropWhile isJsSpace ++ b :: (s2.reverse ++ (p.dropWhile isJsSpace).reverse) := by
    rw [hs2]
    simp only [List.reverse_append, List.reverse_cons, List.reverse_nil, List.nil_append,
      List.append_assoc, List.singleton_append]
    exact dropWhile_append_cons _ _ _ _ hsb
  unfold trim
  rw [step1, step2, hs2]
  simp

theorem trim_eq_self (s : List Char) (a b : Char) (ha : s.head? = some a)
    (hb : s.getLast? = some b) (hsa : isJsSpace a = false) (hsb : isJsSpace b = false) :
    trim s = s := by
  have := trim_middle [] s [] a b ha hb hsa hsb
  simpa using this

theorem noLeadSpace_dropWhile (s : List Char) : NoLeadSpace (s.dropWhile isJsSpace) := by
  intro c hc
  have := List.head?_dropWhile_not isJsSpace s
  rw [hc] at this
  simpa using this

theorem noLeadSpace_trim (s : List Char) : NoLeadSpace (trim s) := by
  intro c hc
  have hpre : trim s <+: s.dropWhile isJsSpace := List.rdropWhile_prefix isJsSpace _
  obtain ⟨r, hr⟩ := hpre
  apply noLeadSpace_dropWhile s c
  rw [← hr]
  cases h : trim s with
  | nil => rw [h] at hc; simp at hc
  | cons x xs => rw [h] at hc; simpa using hc

theorem noTrailSpace_trim (s : List Char) : NoTrailSpace (trim s) := by
  intro c hc
  unfold trim at hc
  rw [List.getLast?_reverse] at hc
  exact noLeadSpace_dropWhile _ c hc

theorem trim_of_noLead_noTrail (s : List Char) (h1 : NoLeadSpace s) (h2 : NoTrailSpace s) :
    trim s = s := by
  cases hs : s with
  | nil => rfl
  | cons x xs =>
    have hne : s ≠ [] := by rw [hs]; simp
    rw [← hs]
    refine trim_eq_self s x (s.getLast hne) (by rw [hs]; rfl) (List.getLast?_eq_getLast _ hne)
      (h1 x (by rw [hs]; rfl)) (h2 _ (List.getLast?_eq_getLast _ hne))

/-- The fence scan does not bring white space to the front. -/
theorem noLeadSpace_stripFencesAux (n : Nat) : ∀ s : List Char, NoLeadSpace s →
    NoLeadSpace (stripFencesAux n s) := by
  induction n with
  | zero => intro s _ c hc; simp [stripFencesAux] at hc
  | succ n ih =>
    intro s hs
    cases s with
    | nil => intro c hc; simp [stripFencesAux] at hc
    | cons x rest =>
      simp only [stripFencesAux]
      split
      · exact ih _ (noLeadSpace_dropWhile _)
      · intro c hc
        simp only [List.head?_cons, Option.some.injEq] at hc
        exact hs c (by simp [hc])

theorem noLeadSpace_stripFences (s : List Char) (h : NoLeadSpace s) :
    NoLeadSpace (stripFences s) :=
  noLeadSpace_stripFencesAux _ s h

/-! ## Brace extraction -/

theorem sanitizeChars_eq (r : List Char) : sanitizeChars r = cutBraces (stripFences (trim r)) :=
  rfl

theorem indexOf_append_cons (c : Char) (a t : List Char) (h : c ∉ a) :
    indexOf c (a ++ c :: t) = (a.length : Int) := by
  unfold indexOf
  rw [if_pos (by simp), List.indexOf_append_of_not_mem h, List.indexOf_cons_self]
  simp

theorem lastIndexOf_append_cons (c : Char) (u b : List Char) (h : c ∉ b) :
    lastIndexOf c (u ++ c :: b) = (u.length : Int) := by
  unfold lastIndexOf
  have hr : (u ++ c :: b).reverse = b.reverse ++ c :: u.reverse := by simp
  have hb : c ∉ b.reverse := by simpa using h
  rw [if_pos (by simp), hr, List.indexOf_append_of_not_mem hb, List.indexOf_cons_self]
  simp only [List.length_append, List.length_cons, List.length_reverse, Nat.add_zero]
  push_cast
  ring

theorem indexOf_eq_neg_one (c : Char) (s : List Char) (h : c ∉ s) : indexOf c s = -1 := by
  unfold indexOf
  rw [if_neg h]

theorem substring_of_le (s : List Char) (i k : Nat) (hik : i ≤ k) (hk : k ≤ s.length) :
    substring s (i : Int) (k : Int) = (s.drop i).take (k - i) := by
  unfold substring
  have h1 : min (max (i : Int) 0) (s.length : Int) = (i : Int) := by omega
  have h2 : min (max (k : Int) 0) (s.length : Int) = (k : Int) := by omega
  simp only [h1, h2]
  have h3 : min (i : Int) (k : Int) = (i : Int) := by omega
  have h4 : max (i : Int) (k : Int) = (k : Int) := by omega
  simp only [h3, h4, Int.toNat_ofNat]

/-- The extraction returns the text between the first `{` and the last `}`, both included. -/
theorem cutBraces_append (a m b : List Char) (ha : '{' ∉ a) (hb : '}' ∉ b) :
    cutBraces (a ++ '{' :: m ++ '}' :: b) = '{' :: m ++ ['}'] := by
  have hfirst : indexOf '{' (a ++ '{' :: m ++ '}' :: b) = (a.length : Int) := by
    have := indexOf_append_cons '{' a (m ++ '}' :: b) ha
    simpa using this
  have hlast : lastIndexOf '}' (a ++ '{' :: m ++ '}' :: b) = ((a.length + 1 + m.length : Nat) : Int) := by
    have := lastIndexOf_append_cons '}' (a ++ '{' :: m) b hb
    simp only [List.length_append, List.length_cons] at this
    rw [this]
    congr 1
    omega
  unfold cutBraces
  simp only [hfirst, hlast]
  rw [if_pos (by constructor <;> omega)]
  have hk : ((a.length + 1 + m.length : Nat) : Int) + 1 = ((a.length + 1 + m.length + 1 : Nat) : Int) := by
    push_cast; ring
  rw [hk, substring_of_le _ _ _ (by omega) (by simp; omega)]
  have hd : (a ++ '{' :: m ++ '}' :: b).drop a.length = '{' :: m ++ '}' :: b := by
    simp
  rw [hd]
  have hl : a.length + 1 + m.length + 1 - a.length = ('{' :: m ++ ['}']).length := by
    simp; omega
  rw [hl]
  have : '{' :: m ++ '}' :: b = ('{' :: m ++ ['}']) ++ b := by simp
  rw [this, List.take_left]

theorem cutBraces_braced (m : List Char) : cutBraces ('{' :: m ++ ['}']) = '{' :: m ++ ['}'] := by
  have := cutBraces_append [] m [] (by simp) (by simp)
  simpa using this

/-- Either the text has a first `{` followed somewhere by its last `}`, or the extraction
leaves it as it is. -/
theorem cutBraces_cases (c : List Char) :
    (∃ a m b, c = a ++ '{' :: m ++ '}' :: b ∧ '{' ∉ a ∧ '}' ∉ b) ∨ cutBraces c = c := by
  by_cases hcond : indexOf '{' c ≠ -1 ∧ lastIndexOf '}' c > indexOf '{' c
  · left
    obtain ⟨h1, h2⟩ := hcond
    have hmem1 : '{' ∈ c := by
      by_contra hn
      exact h1 (indexOf_eq_neg_one _ _ hn)
    obtain ⟨a, t, hat, ha⟩ := List.eq_append_cons_of_mem hmem1
    have hi : indexOf '{' c = (a.length : Int) := by
      rw [hat]; exact indexOf_append_cons _ _ _ ha
    have hmem2 : '}' ∈ c := by
      by_contra hn
      have : lastIndexOf '}' c = -1 := by unfold lastIndexOf; rw [if_neg hn]
      rw [this, hi] at h2
      omega
    have hmem2r : '}' ∈ c.reverse := by simpa using hmem2
    obtain ⟨b1, u1, hbu, hb1⟩ := List.eq_append_cons_of_mem hmem2r
    have hc2 : c = u1.reverse ++ '}' :: b1.reverse := by
      have := congrArg List.reverse hbu
      simpa using this
    have hb : '}' ∉ b1.reverse := by simpa using hb1
    have hk : lastIndexOf '}' c = (u1.reverse.length : Int) := by
      rw [hc2]; exact lastIndexOf_append_cons _ _ _ hb
    rw [hi, hk] at h2
    have hlen : a.length < u1.reverse.length := by omega
    have heq : a ++ '{' :: t = u1.reverse ++ '}' :: b1.reverse := by rw [← hat, ← hc2]
    rcases List.append_eq_append_iff.mp heq with ⟨w, hw1, hw2⟩ | ⟨w, hw1, hw2⟩
    · cases w with
      | nil =>
        simp only [List.append_nil] at hw1
        rw [hw1] at hlen
        omega
      | cons x w1 =>
        simp only [List.cons_append, List.cons.injEq] at hw2
        refine ⟨a, w1, b1.reverse, ?_, ha, hb⟩
        rw [hat, hw2.2]
        simp
    · have : a.length = u1.reverse.length + w.length := by rw [hw1]; simp
      omega
  · right
    unfold cutBraces
    simp only
    rw [if_neg hcond]

/-! ## Fences and parts of a text -/

theorem hasFence_cons (x : Char) (t : List Char) (h : hasFence (x :: t) = false) :
    hasFence t = false := by
  simp only [hasFence, Bool.or_eq_false_iff] at h
  exact h.2

theorem hasFence_of_append_left (a t : List Char) (h : hasFence (a ++ t) = false) :
    hasFence t = false := by
  induction a with
  | nil => simpa using h
  | cons x rest ih => exact ih (hasFence_cons x _ h)

theorem hasFence_of_append_right (t b : List Char) (h : hasFence (t ++ b) = false) :
    hasFence t = false := by
  induction t with
  | nil => rfl
  | cons x rest ih =>
    simp only [List.cons_append, hasFence, Bool.or_eq_false_iff, Bool.and_eq_false_imp,
      beq_iff_eq] at h ⊢
    refine ⟨fun hx => ?_, ih h.2⟩
    have h1 := h.1 hx
    by_contra hcon
    simp only [Bool.not_eq_false, beq_iff_eq] at hcon
    have : (rest ++ b).take 2 = ['`', '`'] := by
      rw [List.take_append_eq_append_take, hcon]
      have hl : 2 ≤ rest.length := by
        have := congrArg List.length hcon
        simp only [List.length_take, List.length_cons, List.length_nil] at this
        omega
      simp [Nat.sub_eq_zero_of_le hl]
    simp [this] at h1

theorem hasFence_middle (a t b : List Char) (h : hasFence (a ++ t ++ b) = false) :
    hasFence t = false :=
  hasFence_of_append_right t b (hasFence_of_append_left a (t ++ b) (by simpa using h))

/-! ## Sanitising twice -/

theorem noTrailSpace_of_endsWithSpace (s : List Char) (h : endsWithSpace s = false) :
    NoTrailSpace s := by
  intro c hc
  unfold endsWithSpace at h
  rw [hc] at h
  exact h

theorem isJsSpace_lbrace : isJsSpace '{' = false := by decide

theorem isJsSpace_rbrace : isJsSpace '}' = false := by decide

theorem braced_assoc (a m b : List Char) :
    a ++ '{' :: m ++ '}' :: b = a ++ ('{' :: m ++ ['}']) ++ b := by simp

theorem sanitizeChars_braced (m : List Char) (hf : hasFence ('{' :: m ++ ['}']) = false) :
    sanitizeChars ('{' :: m ++ ['}']) = '{' :: m ++ ['}'] := by
  have ht : trim ('{' :: m ++ ['}']) = '{' :: m ++ ['}'] :=
    trim_eq_self _ '{' '}' rfl (by rw [List.getLast?_append]; rfl)
      isJsSpace_lbrace isJsSpace_rbrace
  rw [sanitizeChars_eq, ht, stripFences_of_noFence _ hf, cutBraces_braced]

/-- A sanitised text that does not end in white space is a fixed point of the sanitiser. -/
theorem sanitizeChars_idem (r : List Char) (ht : endsWithSpace (sanitizeChars r) = false) :
    sanitizeChars (sanitizeChars r) = sanitizeChars r := by
  have hf : hasFence (stripFences (trim r)) = false := hasFence_stripFences _
  have hl : NoLeadSpace (stripFences (trim r)) :=
    noLeadSpace_stripFences _ (noLeadSpace_trim r)
  rcases cutBraces_cases (stripFences (trim r)) with ⟨a, m, b, hc, ha, hb⟩ | hid
  · have hs : sanitizeChars r = '{' :: m ++ ['}'] := by
      rw [sanitizeChars_eq, hc, cutBraces_append a m b ha hb]
    rw [hs]
    apply sanitizeChars_braced
    rw [hc, braced_assoc] at hf
    exact hasFence_middle _ _ _ hf
  · have hs : sanitizeChars r = stripFences (trim r) := by rw [sanitizeChars_eq, hid]
    rw [hs] at ht ⊢
    rw [sanitizeChars_eq, trim_of_noLead_noTrail _ hl (noTrailSpace_of_endsWithSpace _ ht),
      stripFences_of_noFence _ hf, hid]

theorem string_ne_empty_iff (r : String) : r ≠ "" ↔ r.data ≠ [] := by
  constructor
  · intro h hd
    apply h
    cases r
    simp only at hd
    rw [hd]
  · intro h hr
    apply h
    rw [hr]

theorem sanitizeJSON_ok (r : String) (hr : r ≠ "") :
    sanitizeJSON r = .ok ⟨sanitizeChars r.data⟩ := by
  unfold sanitizeJSON
  rw [if_neg ((string_ne_empty_iff r).mp hr)]

/-! ## What a second pass removes -/

theorem stripFencesAux_length_le (n : Nat) : ∀ s : List Char,
    (stripFencesAux n s).length ≤ s.length := by
  induction n with
  | zero => intro s; simp [stripFencesAux]
  | succ n ih =>
    intro s
    cases s with
    | nil => simp [stripFencesAux]
    | cons x rest =>
      simp only [stripFencesAux]
      split
      · have h1 := ih ((rest.drop 2).dropWhile isJsSpace)
        have h2 := dropWhile_length_le isJsSpace (rest.drop 2)
        have h3 : (rest.drop 2).length ≤ rest.length := by simp
        simp only [List.length_cons]
        omega
      · have h1 := ih rest
        simp only [List.length_cons]
        omega

theorem cutBraces_length_le (l : List Char) : (cutBraces l).length ≤ l.length := by
  rcases cutBraces_cases l with ⟨a, m, b, hl, ha, hb⟩ | hid
  · rw [hl, cutBraces_append a m b ha hb]
    simp only [List.length_append, List.length_cons, List.length_nil]
    omega
  · rw [hid]

theorem trim_length_le (s : List Char) : (trim s).length ≤ s.length := by
  unfold trim
  rw [List.length_reverse]
  have h1 := dropWhile_length_le isJsSpace (s.dropWhile isJsSpace).reverse
  have h2 := dropWhile_length_le isJsSpace s
  rw [List.length_reverse] at h1
  omega

/-- Trimming shortens a text that ends in white space. -/
theorem trim_length_lt (s : List Char) (h : endsWithSpace s = true) :
    (trim s).length < s.length := by
  have hne : s ≠ [] := by
    intro hs
    rw [hs] at h
    simp [endsWithSpace] at h
  have hpos : 0 < s.length := List.length_pos.mpr hne
  have hlast : isJsSpace (s.getLast hne) = true := by
    unfold endsWithSpace at h
    rw [List.getLast?_eq_getLast _ hne] at h
    exact h
  by_cases ht : s.dropWhile isJsSpace = []
  · unfold trim
    rw [ht]
    simpa using hpos
  · obtain ⟨pre, hpre⟩ : s.dropWhile isJsSpace <:+ s := List.dropWhile_suffix isJsSpace
    have hl : (s.dropWhile isJsSpace).getLast ht = s.getLast hne := by
      have h1 : s.getLast? = some ((s.dropWhile isJsSpace).getLast ht) := by
        conv_lhs => rw [← hpre]
        rw [List.getLast?_append, List.getLast?_eq_getLast _ ht]
        rfl
      rw [List.getLast?_eq_getLast _ hne, Option.some.injEq] at h1
      exact h1.symm
    have hrev : (s.dropWhile isJsSpace).reverse =
        s.getLast hne :: (s.dropWhile isJsSpace).dropLast.reverse := by
      rw [← hl, ← List.reverse_concat, List.dropLast_append_getLast]
    have hlen : (s.dropWhile isJsSpace).length ≤ s.length := dropWhile_length_le _ _
    unfold trim
    rw [hrev, List.dropWhile_cons, if_pos hlast, List.length_reverse]
    have h1 := dropWhile_length_le isJsSpace (s.dropWhile isJsSpace).dropLast.reverse
    rw [List.length_reverse, List.length_dropLast] at h1
    have h2 : 0 < (s.dropWhile isJsSpace).length := List.length_pos.mpr ht
    omega

theorem sanitizeChars_length_le (s : List Char) : (sanitizeChars s).length ≤ (trim s).length := by
  rw [sanitizeChars_eq]
  exact le_trans (cutBraces_length_le _) (stripFencesAux_length_le _ _)

/-- A text that the sanitiser maps to itself whenever it does not end in white space is a
fixed point of `sanitizeJSON` exactly when it is not empty and does not end in white space. -/
theorem sanitizeJSON_fixed_iff (t : List Char)
    (hidem : endsWithSpace t = false → sanitizeChars t = t) :
    sanitizeJSON (String.mk t) = .ok (String.mk t) ↔
      (String.mk t ≠ "" ∧ endsWithSpace t = false) := by
  constructor
  · intro h
    have hne : String.mk t ≠ "" := by
      intro he
      rw [he] at h
      exact absurd h (by decide)
    refine ⟨hne, ?_⟩
    rw [sanitizeJSON_ok _ hne] at h
    have hdata : sanitizeChars t = t := congrArg String.data (Except.ok.inj h)
    by_contra hsp
    simp only [Bool.not_eq_false] at hsp
    have h1 := trim_length_lt t hsp
    have h2 := sanitizeChars_length_le t
    rw [hdata] at h2
    omega
  · rintro ⟨hne, ht⟩
    rw [sanitizeJSON_ok _ hne]
    show Except.ok (String.mk (sanitizeChars t)) = Except.ok (String.mk t)
    rw [hidem ht]

/-- C1 (amended).  For every non-empty reply `r`, `sanitizeJSON r` succeeds with some text
`s`; applying `sanitizeJSON` to `s` succeeds and yields exactly `s` if and only if `s` is not
empty and does not end in a white-space character. -/
theorem sanitizeJSON_idempotent_on_trimmed_output (r : String) (hr : r ≠ "") :
    ∃ s, sanitizeJSON r = .ok s ∧
      (sanitizeJSON s = .ok s ↔ (s ≠ "" ∧ endsWithSpace s.data = false)) :=
  ⟨String.mk (sanitizeChars r.data), sanitizeJSON_ok r hr,
    sanitizeJSON_fixed_iff (sanitizeChars r.data) (sanitizeChars_idem r.data)⟩

/-- C1, witness: a reply with prose around the object. -/
theorem sanitizeJSON_idempotent_on_trimmed_output_witness :
    "Sure: \x7b\"a\":\x7b\x7d\x7d ok" ≠ "" ∧
    ∃ s, sanitizeJSON "Sure: \x7b\"a\":\x7b\x7d\x7d ok" = .ok s ∧
      (sanitizeJSON s = .ok s ↔ (s ≠ "" ∧ endsWithSpace s.data = false)) :=
  ⟨by decide, sanitizeJSON_idempotent_on_trimmed_output _ (by decide)⟩

/-- C1, counterexample.  A reply that ends in a fence preceded by white space is sanitised to
a text that a second pass shortens, and a reply made of a fence only is sanitised to the
empty text, which a second pass rejects. -/
theorem sanitizeJSON_not_idempotent :
    sanitizeJSON "a ```" = .ok "a " ∧ sanitizeJSON "a " = .ok "a" ∧
    sanitizeJSON "```" = .ok "" ∧ sanitizeJSON "" = .error "Empty AI response" := by
  decide

/-! ## A fenced reply -/

/-- The scan copies a fence-free text that does not end in a backtick and goes on with what
follows it. -/
theorem stripFences_append_of_noFence (u : List Char) : ∀ t : List Char, hasFence t = false →
    (∀ c, t.getLast? = some c → c ≠ '`') → stripFences (t ++ u) = t ++ stripFences u := by
  intro t
  induction t with
  | nil => intro _ _; rfl
  | cons x rest ih =>
    intro hf hlast
    have hrest : ∀ c, rest.getLast? = some c → c ≠ '`' := by
      intro c hc
      apply hlast c
      cases rest with
      | nil => simp at hc
      | cons y ys => rw [List.getLast?_cons_cons]; exact hc
    have hk : ¬ (x = '`' ∧ (rest ++ u).take 2 = ['`', '`']) := by
      rintro ⟨hx, h2⟩
      simp only [hasFence, Bool.or_eq_false_iff, Bool.and_eq_false_imp, beq_iff_eq] at hf
      have hf1 := hf.1 hx
      cases rest with
      | nil => exact hlast x rfl hx
      | cons y ys =>
        cases ys with
        | nil =>
          simp only [List.cons_append, List.take_succ_cons, List.cons.injEq] at h2
          exact hlast y rfl h2.1
        | cons z zs =>
          simp only [List.cons_append, List.take_succ_cons, List.take_zero] at h2 hf1
          simp [h2] at hf1
    rw [List.cons_append, stripFences_keep x _ hk, ih (hasFence_cons x rest hf) hrest,
      List.cons_append]

theorem braced_of_head_getLast (j : List Char) (h1 : j.head? = some '{')
    (h2 : j.getLast? = some '}') : ∃ m, j = '{' :: m ++ ['}'] := by
  cases j with
  | nil => simp at h1
  | cons x rest =>
    simp only [List.head?_cons, Option.some.injEq] at h1
    subst h1
    cases hrest : rest with
    | nil => rw [hrest] at h2; simp at h2
    | cons y ys =>
      have hne : rest ≠ [] := by rw [hrest]; simp
      rw [← hrest]
      refine ⟨rest.dropLast, ?_⟩
      have h3 : rest.getLast? = some '}' := by
        rw [hrest] at h2 ⊢
        rw [List.getLast?_cons_cons] at h2
        exact h2
      rw [List.getLast?_eq_getLast _ hne, Option.some.injEq] at h3
      have h4 := List.dropLast_append_getLast hne
      rw [h3] at h4
      rw [List.cons_append, h4]

theorem sanitizeChars_fenced (j : List Char) (h1 : j.head? = some '{')
    (h2 : j.getLast? = some '}') (h3 : hasFence j = false) :
    sanitizeChars (['`', '`', '`', 'j', 's', 'o', 'n', '\n'] ++ j ++ ['\n', '`', '`', '`']) = j := by
  obtain ⟨m, hm⟩ := braced_of_head_getLast j h1 h2
  have ht : trim (['`', '`', '`', 'j', 's', 'o', 'n', '\n'] ++ j ++ ['\n', '`', '`', '`']) =
      ['`', '`', '`', 'j', 's', 'o', 'n', '\n'] ++ j ++ ['\n', '`', '`', '`'] :=
    trim_eq_self _ '`' '`' rfl (by rw [List.getLast?_append]; rfl) (by decide) (by decide)
  have hlast : ∀ c, j.getLast? = some c → c ≠ '`' := by
    intro c hc
    rw [h2] at hc
    simp only [Option.some.injEq] at hc
    rw [← hc]
    decide
  have htail : stripFences ['\n', '`', '`', '`'] = ['\n'] := by decide
  have hs : stripFences (['`', '`', '`', 'j', 's', 'o', 'n', '\n'] ++ j ++ ['\n', '`', '`', '`']) =
      ['j', 's', 'o', 'n', '\n'] ++ j ++ ['\n'] := by
    have e1 : (['`', '`', '`', 'j', 's', 'o', 'n', '\n'] ++ j ++ ['\n', '`', '`', '`']) =
        '`' :: '`' :: '`' :: ('j' :: 's' :: 'o' :: 'n' :: '\n' :: (j ++ ['\n', '`', '`', '`'])) := by
      simp
    have e2 : ('j' :: 's' :: 'o' :: 'n' :: '\n' :: (j ++ ['\n', '`', '`', '`'])).dropWhile isJsSpace =
        'j' :: 's' :: 'o' :: 'n' :: '\n' :: (j ++ ['\n', '`', '`', '`']) := by
      rw [List.dropWhile_cons]
      rfl
    rw [e1, stripFences_fence, e2,
      stripFences_keep 'j' _ (by simp), stripFences_keep 's' _ (by simp),
      stripFences_keep 'o' _ (by simp), stripFences_keep 'n' _ (by simp),
      stripFences_keep '\n' _ (by simp),
      stripFences_append_of_noFence _ j h3 hlast, htail]
    simp
  rw [sanitizeChars_eq, ht, hs, hm]
  have := cutBraces_append ['j', 's', 'o', 'n', '\n'] m ['\n'] (by decide) (by decide)
  simpa using this

/-- C2.  For every text `j` that starts with `{`, ends with `}` and contains no run of three
backticks, `sanitizeJSON` applied to the fenced reply made of the opening fence with its
`json` tag, a newline, `j`, a newline and the closing fence returns exactly `j`. -/
theorem sanitizeJSON_fenced_reply (j : String) (h1 : j.data.head? = some '{')
    (h2 : j.data.getLast? = some '}') (h3 : hasFence j.data = false) :
    sanitizeJSON ("```json\n" ++ j ++ "\n```") = .ok j := by
  have hd : ("```json\n" ++ j ++ "\n```").data =
      ['`', '`', '`', 'j', 's', 'o', 'n', '\n'] ++ j.data ++ ['\n', '`', '`', '`'] := by
    simp only [String.data_append]
  have hne : ("```json\n" ++ j ++ "\n```") ≠ "" := by
    rw [string_ne_empty_iff, hd]
    simp
  rw [sanitizeJSON_ok _ hne, hd, sanitizeChars_fenced j.data h1 h2 h3]

/-- C2, witness: the reply of the specification's example. -/
theorem sanitizeJSON_fenced_reply_witness :
    sanitizeJSON ("```json\n" ++ "\x7b\"onTrack\":true\x7d" ++ "\n```") = .ok "\x7b\"onTrack\":true\x7d" :=
  sanitizeJSON_fenced_reply "\x7b\"onTrack\":true\x7d" (by decide) (by decide) (by decide)

/-! ## Prose around the object -/

theorem mem_of_mem_dropWhile (f : Char → Bool) (c : Char) (l : List Char)
    (h : c ∈ l.dropWhile f) : c ∈ l :=
  (List.dropWhile_suffix f).subset h

theorem sanitizeChars_prose (p s q : List Char) (hs1 : s.head? = some '{')
    (hs2 : s.getLast? = some '}') (hp : '{' ∉ p) (hq : '}' ∉ q)
    (hf : hasFence (p ++ s ++ q) = false) : sanitizeChars (p ++ s ++ q) = s := by
  obtain ⟨m, hm⟩ := braced_of_head_getLast s hs1 hs2
  have ht := trim_middle p s q '{' '}' hs1 hs2 isJsSpace_lbrace isJsSpace_rbrace
  have hp1 : '{' ∉ p.dropWhile isJsSpace := fun h => hp (mem_of_mem_dropWhile _ _ _ h)
  have hq1 : '}' ∉ (q.reverse.dropWhile isJsSpace).reverse := by
    intro h
    apply hq
    have := mem_of_mem_dropWhile _ _ _ (List.mem_reverse.mp h)
    exact List.mem_reverse.mp this
  have hpre : (q.reverse.dropWhile isJsSpace).reverse <+: q := List.rdropWhile_prefix isJsSpace _
  obtain ⟨q0, hq0⟩ := hpre
  have hf1 : hasFence (p.dropWhile isJsSpace ++ s ++ (q.reverse.dropWhile isJsSpace).reverse)
      = false := by
    apply hasFence_middle (p.takeWhile isJsSpace) _ q0
    have e : p.takeWhile isJsSpace ++
        (p.dropWhile isJsSpace ++ s ++ (q.reverse.dropWhile isJsSpace).reverse) ++ q0 =
        (p.takeWhile isJsSpace ++ p.dropWhile isJsSpace) ++ s ++
          ((q.reverse.dropWhile isJsSpace).reverse ++ q0) := by
      simp only [List.append_assoc]
    rw [e, List.takeWhile_append_dropWhile, hq0]
    exact hf
  rw [sanitizeChars_eq, ht, stripFences_of_noFence _ hf1, hm]
  have := cutBraces_append (p.dropWhile isJsSpace) m
    ((q.reverse.dropWhile isJsSpace).reverse) hp1 hq1
  simpa using this

/-- A text with `x` at position `i` and `y` at a later position `k`, cut at these two. -/
theorem split_at_two (l : List Char) (i k : Nat) (x y : Char) (hi : l[i]? = some x)
    (hk : l[k]? = some y) (hik : i < k) :
    l = l.take i ++ x :: (l.drop (i + 1)).take (k - i - 1) ++ y :: l.drop (k + 1) := by
  obtain ⟨hil, hix⟩ := List.getElem?_eq_some.mp hi
  obtain ⟨hkl, hky⟩ := List.getElem?_eq_some.mp hk
  have e1 : l.drop i = x :: l.drop (i + 1) := by rw [List.drop_eq_getElem_cons hil, hix]
  have e2 : (l.drop (i + 1)).drop (k - i - 1) = y :: l.drop (k + 1) := by
    rw [List.drop_drop]
    have : i + 1 + (k - i - 1) = k := by omega
    rw [this, List.drop_eq_getElem_cons hkl, hky]
  calc l = l.take i ++ l.drop i := (List.take_append_drop i l).symm
    _ = l.take i ++ x :: l.drop (i + 1) := by rw [e1]
    _ = l.take i ++ x :: ((l.drop (i + 1)).take (k - i - 1) ++
          (l.drop (i + 1)).drop (k - i - 1)) := by rw [List.take_append_drop]
    _ = l.take i ++ x :: (l.drop (i + 1)).take (k - i - 1) ++ y :: l.drop (k + 1) := by
        rw [e2]; simp

/-- The extraction in terms of positions: with the first `{` at `i` and the last `}` at
`k > i`, the result is the text from position `i` to position `k`, both included. -/
theorem cutBraces_positions (l : List Char) (i k : Nat) (hi : l[i]? = some '{')
    (hfirst : ∀ j, j < i → l[j]? ≠ some '{') (hk : l[k]? = some '}')
    (hlast : ∀ j, k < j → l[j]? ≠ some '}') (hik : i < k) :
    cutBraces l = (l.drop i).take (k + 1 - i) := by
  obtain ⟨hil, -⟩ := List.getElem?_eq_some.mp hi
  obtain ⟨hkl, -⟩ := List.getElem?_eq_some.mp hk
  have hsplit := split_at_two l i k '{' '}' hi hk hik
  have ha : '{' ∉ l.take i := by
    intro h
    obtain ⟨n, hn⟩ := List.mem_iff_getElem?.mp h
    rw [List.getElem?_take] at hn
    split at hn
    · rename_i hlt; exact hfirst n hlt hn
    · simp at hn
  have hb : '}' ∉ l.drop (k + 1) := by
    intro h
    obtain ⟨n, hn⟩ := List.mem_iff_getElem?.mp h
    rw [List.getElem?_drop] at hn
    exact hlast (k + 1 + n) (by omega) hn
  have hla : (l.take i).length = i := by rw [List.length_take]; omega
  have hlm : ((l.drop (i + 1)).take (k - i - 1)).length = k - i - 1 := by
    rw [List.length_take, List.length_drop]; omega
  generalize l.take i = a at hsplit ha hla
  generalize (l.drop (i + 1)).take (k - i - 1) = m at hsplit hlm
  generalize l.drop (k + 1) = b at hsplit hb
  rw [hsplit, cutBraces_append a m b ha hb, braced_assoc, List.append_assoc, ← hla,
    List.drop_left]
  have hlen : k + 1 - a.length = ('{' :: m ++ ['}']).length := by
    simp only [List.length_append, List.length_cons, List.length_nil]
    omega
  rw [hlen, List.take_left]

/-- C3.  For a reply `p ++ s ++ q` where `s` starts with `{` and ends with `}`, the prose
`p` and `q` contains neither `{` nor `}` and the reply contains no run of three backticks,
`sanitizeJSON` returns exactly `s`.  More generally, whenever the trimmed, fence-stripped reply
has its first `{` at position `i` and its last `}` at a position `k > i`, the result is the
text from position `i` to position `k`, both included. -/
theorem sanitizeJSON_extracts_object :
    (∀ p s q : String, s.data.head? = some '{' → s.data.getLast? = some '}' →
      '{' ∉ p.data → '}' ∉ p.data → '{' ∉ q.data → '}' ∉ q.data →
      hasFence (p ++ s ++ q).data = false → sanitizeJSON (p ++ s ++ q) = .ok s) ∧
    (∀ (r : String) (i k : Nat),
      (stripFences (trim r.data))[i]? = some '{' →
      (∀ j, j < i → (stripFences (trim r.data))[j]? ≠ some '{') →
      (stripFences (trim r.data))[k]? = some '}' →
      (∀ j, j < (stripFences (trim r.data)).length → k < j →
        (stripFences (trim r.data))[j]? ≠ some '}') →
      i < k →
      sanitizeJSON r = .ok ⟨((stripFences (trim r.data)).drop i).take (k + 1 - i)⟩) := by
  constructor
  · intro p s q hs1 hs2 hp1 _ _ hq2 hf
    have hd : (p ++ s ++ q).data = p.data ++ s.data ++ q.data := by
      simp only [String.data_append]
    have hne : p ++ s ++ q ≠ "" := by
      rw [string_ne_empty_iff, hd]
      intro h
      have h1 : s.data = [] := by
        have := congrArg List.length h
        simp only [List.length_append, List.length_nil] at this
        exact List.length_eq_zero.mp (by omega)
      rw [h1] at hs1
      simp at hs1
    rw [sanitizeJSON_ok _ hne, hd, sanitizeChars_prose _ _ _ hs1 hs2 hp1 hq2 (by rw [← hd]; exact hf)]
  · intro r i k hi hfirst hk hlast hik
    have hne : r ≠ "" := by
      intro h
      rw [h] at hi
      simp [trim, stripFences, stripFencesAux] at hi
    rw [sanitizeJSON_ok _ hne, sanitizeChars_eq]
    have hlast1 : ∀ j, k < j → (stripFences (trim r.data))[j]? ≠ some '}' := by
      intro j hj
      by_cases hlt : j < (stripFences (trim r.data)).length
      · exact hlast j hlt hj
      · rw [List.getElem?_eq_none (by omega)]
        simp
    rw [cutBraces_positions _ i k hi hfirst hk hlast1 hik]

/-- C3, witness: prose on both sides of an object with a nested object; the first `{` of the
cleaned reply is at position 6 and its last `}` at position 13. -/
theorem sanitizeJSON_extracts_object_witness :
    sanitizeJSON ("Sure: " ++ "\x7b\"a\":\x7b\x7d\x7d" ++ " ok") = .ok "\x7b\"a\":\x7b\x7d\x7d" ∧
    sanitizeJSON "Sure: \x7b\"a\":\x7b\x7d\x7d ok" =
      .ok ⟨((stripFences (trim "Sure: \x7b\"a\":\x7b\x7d\x7d ok".data)).drop 6).take (13 + 1 - 6)⟩ :=
  ⟨sanitizeJSON_extracts_object.1 "Sure: " "\x7b\"a\":\x7b\x7d\x7d" " ok" (by decide) (by decide)
      (by decide) (by decide) (by decide) (by decide) (by decide),
    sanitizeJSON_extracts_object.2 "Sure: \x7b\"a\":\x7b\x7d\x7d ok" 6 13 (by decide) (by decide)
      (by decide) (by decide) (by decide)⟩


/-! ## Asynchronous code, step by step -/

@[simp] theorem pure_apply {α : Type} (a : α) (session : Option Session) :
    (pure a : Js α) session = { result := .ok a, session := session, calls := [] } := rfl

@[simp] theorem bind_apply {α β : Type} (m : Js α) (f : α → Js β) (session : Option Session) :
    (m >>= f) session =
      match (m session).result with
      | .ok a =>
        { result := (f a (m session).session).result,
          session := (f a (m session).session).session,
          calls := (m session).calls ++ (f a (m session).session).calls }
      | .error e =>
        { result := .error e, session := (m session).session, calls := (m session).calls } :=
  rfl

@[simp] theorem jsThrow_apply {α : Type} (message : String) (session : Option Session) :
    (jsThrow message : Js α) session =
      { result := .error message, session := session, calls := [] } := rfl

@[simp] theorem jsTry_apply {α : Type} (body : Js α) (handler : String → Js α)
    (session : Option Session) :
    jsTry body handler session =
      match (body session).result with
      | .ok a => { result := .ok a, session := (body session).session,
                   calls := (body session).calls }
      | .error e =>
        { result := (handler e (body session).session).result,
          session := (handler e (body session).session).session,
          calls := (body session).calls ++ (handler e (body session).session).calls } := rfl

@[simp] theorem hostCall_apply {α : Type} (call : Call) (answer : Except String α)
    (session : Option Session) :
    hostCall call answer session = { result := answer, session := session, calls := [call] } :=
  rfl

@[simp] theorem hostCallDetached_apply (call : Call) (session : Option Session) :
    hostCallDetached call session = { result := .ok (), session := session, calls := [call] } :=
  rfl

@[simp] theorem enterCall_apply (call : Call) (session : Option Session) :
    enterCall call session = { result := .ok (), session := session, calls := [call] } := rfl

@[simp] theorem ofExcept_apply {α : Type} (r : Except String α) (session : Option Session) :
    ofExcept r session = { result := r, session := session, calls := [] } := rfl

@[simp] theorem getSession_apply (session : Option Session) :
    getSession session = { result := .ok session, session := session, calls := [] } := rfl

@[simp] theorem setSession_apply (s session : Option Session) :
    setSession s session = { result := .ok (), session := s, calls := [] } := rfl

/-! ## Availability -/

/-- C9.  `available()` never throws: in every host state it returns a record; when the model
capability is missing the record has `available = false` and status `no-api`; when
`availability` is not a function, when the probe rejects, and when the 5 second timer wins
the race, it has `available = false` and status `error`. -/
theorem available_never_throws (host : Host) (session : Option Session) :
    ∃ r, (available host session).result = .ok r ∧
      (getLanguageModel host = none → r.available = false ∧ r.status = "no-api") ∧
      (∀ lm, getLanguageModel host = some lm → lm.availability = none →
        r.available = false ∧ r.status = "error") ∧
      (∀ lm probe e, getLanguageModel host = some lm → lm.availability = some probe →
        probe.outcome = .error e → r.available = false ∧ r.status = "error") ∧
      (∀ lm probe, getLanguageModel host = some lm → lm.availability = some probe →
        probe.settlesBeforeTimeout = false → r.available = false ∧ r.status = "error") := by
  cases hlm : getLanguageModel host with
  | none =>
    refine ⟨⟨false, "no-api", none, none⟩, ?_, ?_⟩
    · simp [available, checkAvailability, hlm]
    · simp
  | some lm =>
    cases hav : lm.availability with
    | none =>
      refine ⟨⟨false, "error", none, some "LanguageModel.availability is not a function"⟩, ?_, ?_⟩
      · simp [available, checkAvailability, hlm, hav]
      · simp
    | some probe =>
      cases hrace : raceWithTimeout probe with
      | ok v =>
        refine ⟨⟨v != "unavailable", v, none, none⟩,
          by simp [available, checkAvailability, hlm, hav, hrace], by simp, ?_, ?_, ?_⟩
        · intro lm1 h1 h2
          simp only [Option.some.injEq] at h1
          subst h1
          rw [hav] at h2
          simp at h2
        · intro lm1 probe1 e h1 h2 h3
          simp only [Option.some.injEq] at h1
          subst h1
          rw [hav, Option.some.injEq] at h2
          subst h2
          unfold raceWithTimeout at hrace
          split at hrace
          · rw [h3] at hrace; simp at hrace
          · simp at hrace
        · intro lm1 probe1 h1 h2 h3
          simp only [Option.some.injEq] at h1
          subst h1
          rw [hav, Option.some.injEq] at h2
          subst h2
          unfold raceWithTimeout at hrace
          rw [h3] at hrace
          simp at hrace
      | error e =>
        exact ⟨⟨false, "error", none, some (if e = "" then "Availability check failed" else e)⟩,
          by simp [available, checkAvailability, hlm, hav, hrace], by simp⟩

/-- C10 (amended).  When the probe resolves in time to a value `v`, the record returned by
`available()` has `status = v`, the value of the host unchanged, and `available` is true
exactly when `v` is not `unavailable`. -/
theorem available_passes_status_through (host : Host) (session : Option Session)
    (lm : LanguageModel) (probe : Probe) (v : String) (hlm : getLanguageModel host = some lm)
    (hav : lm.availability = some probe) (htime : probe.settlesBeforeTimeout = true)
    (hv : probe.outcome = .ok v) :
    (available host session).result =
      .ok { available := v != "unavailable", status := v, detail := none, error := none } := by
  unfold available checkAvailability
  simp [hlm, hav, raceWithTimeout, htime, hv]

/-- C10, witness: the probe of the sample model resolves to `unavailable`. -/
theorem available_passes_status_through_witness :
    (available (sampleHost (some (sampleModel "unavailable" (sampleSession (.ok "") (.ok ())))))
      none).result = .ok ⟨"unavailable" != "unavailable", "unavailable", none, none⟩ :=
  available_passes_status_through _ _ (sampleModel "unavailable" (sampleSession (.ok "") (.ok ())))
    { outcome := .ok "unavailable", settlesBeforeTimeout := true } "unavailable" rfl rfl rfl rfl

/-- C10, counterexample.  The probe resolves to `available`, a value the host really returns:
the status of the record is `available`, which is none of the five normalized values. -/
theorem available_status_not_normalized :
    (available (sampleHost (some (sampleModel "available" (sampleSession (.ok "") (.ok ())))))
      none).result =
      .ok { available := true, status := "available", detail := none, error := none } ∧
    "available" ∉ ["readily-available", "after-download", "no-api", "unavailable", "error"] := by
  decide

/-! ## The session manager -/

theorem resetSession_none : resetSession none = { result := .ok (), session := none, calls := [] } := by
  simp [resetSession]

theorem resetSession_ok (s : Session) (hd : s.destroy = .ok ()) :
    resetSession (some s) = { result := .ok (), session := none, calls := [.destroy s.id] } := by
  simp [resetSession, hd]

theorem resetSession_error (s : Session) (e : String) (hd : s.destroy = .error e) :
    resetSession (some s) =
      { result := .error e, session := some s, calls := [.destroy s.id] } := by
  simp [resetSession, hd]

/-- With a live handle `createSessionIfNeeded` returns it and does nothing else. -/
theorem createSessionIfNeeded_live (host : Host) (s : Session) :
    createSessionIfNeeded host (some s) = { result := .ok s, session := some s, calls := [] } := by
  simp [createSessionIfNeeded]

/-- With an empty handle `createSessionIfNeeded` either fails and leaves the handle empty, or
stores and returns the session that the host's `create` gave.  It calls nothing but
`availability` and `create`. -/
theorem createSessionIfNeeded_empty (host : Host) :
    ∃ l, (∀ c ∈ l, c = Call.availability ∨ c = Call.create) ∧
      ((∃ e, createSessionIfNeeded host none = { result := .error e, session := none, calls := l }) ∨
       (∃ lm s, getLanguageModel host = some lm ∧ lm.create = .ok s ∧
          createSessionIfNeeded host none = { result := .ok s, session := some s, calls := l })) := by
  cases hlm : getLanguageModel host with
  | none =>
    exact ⟨[], by simp,
      Or.inl ⟨"Chrome Built-in AI not available", by simp [createSessionIfNeeded, hlm]⟩⟩
  | some lm =>
    cases hav : lm.availability with
    | none =>
      exact ⟨[], by simp, Or.inl ⟨"LanguageModel.availability is not a function",
        by simp [createSessionIfNeeded, hlm, hav]⟩⟩
    | some probe =>
      cases hout : probe.outcome with
      | error e =>
        exact ⟨[.availability], by simp,
          Or.inl ⟨e, by simp [createSessionIfNeeded, hlm, hav, hout]⟩⟩
      | ok status =>
        by_cases hst : status = "unavailable"
        · exact ⟨[.availability], by simp,
            Or.inl ⟨"AI model unavailable on this device",
              by simp [createSessionIfNeeded, hlm, hav, hout, hst]⟩⟩
        · cases hcr : lm.create with
          | error e =>
            exact ⟨[.availability, .create], by simp,
              Or.inl ⟨e, by simp [createSessionIfNeeded, hlm, hav, hout, hst, hcr]⟩⟩
          | ok s =>
            exact ⟨[.availability, .create], by simp,
              Or.inr ⟨lm, s, rfl, hcr, by simp [createSessionIfNeeded, hlm, hav, hout, hst, hcr]⟩⟩

/-- The session that `createSessionIfNeeded` returns is the one the handle holds afterwards. -/
theorem createSessionIfNeeded_ok (host : Host) (session : Option Session) (s : Session)
    (h : (createSessionIfNeeded host session).result = .ok s) :
    ∃ l, (∀ c ∈ l, c = Call.availability ∨ c = Call.create) ∧
      createSessionIfNeeded host session = { result := .ok s, session := some s, calls := l } ∧
      (session = some s ∨ ∃ lm, getLanguageModel host = some lm ∧ lm.create = .ok s) := by
  cases session with
  | some s0 =>
    rw [createSessionIfNeeded_live] at h ⊢
    simp only [Except.ok.injEq] at h
    subst h
    exact ⟨[], by simp, rfl, Or.inl rfl⟩
  | none =>
    obtain ⟨l, hl, ⟨e, he⟩ | ⟨lm, s1, hlm, hcr, hs1⟩⟩ := createSessionIfNeeded_empty host
    · rw [he] at h
      simp at h
    · rw [hs1] at h ⊢
      simp only [Except.ok.injEq] at h
      subst h
      exact ⟨l, hl, rfl, Or.inr ⟨lm, hlm, hcr⟩⟩

/-! ## The analyzer -/

/-- What `analyzeActivity` computes once it holds session `s` and `destroy()` completes: the
reply is sanitised and the cleaned text is handed to `JSON.parse`; the first failure is the
result, and the handle is empty afterwards. -/
theorem analyzeActivity_of_session (host : Host) (params : AnalyzeParams)
    (session : Option Session) (s : Session) (c0 : List Call)
    (hc : createSessionIfNeeded host session = { result := .ok s, session := some s, calls := c0 })
    (hd : s.destroy = .ok ()) :
    analyzeActivity host params session =
      { result := (do
          let reply ← s.prompt (promptText params.userGoal params.tabUrl params.tabTitle)
            params.screenshot
          let cleaned ← sanitizeJSON reply
          host.jsonParse cleaned)
        session := none
        calls := c0 ++
          [.prompt s.id (promptText params.userGoal params.tabUrl params.tabTitle)
            params.screenshot, .destroy s.id] } := by
  simp only [analyzeActivity, bind_apply, hc, jsTry_apply, hostCall_apply, ofExcept_apply]
  cases hp : s.prompt (promptText params.userGoal params.tabUrl params.tabTitle)
      params.screenshot with
  | error e => simp [resetSession, hd, bind, Except.bind]
  | ok reply =>
    cases hsan : sanitizeJSON reply with
    | error e => simp [resetSession, hd, bind, Except.bind, hsan]
    | ok cleaned =>
      cases hj : host.jsonParse cleaned with
      | error e => simp [resetSession, hd, bind, Except.bind, hsan, hj]
      | ok v => simp [resetSession, hd, bind, Except.bind, hsan, hj]

theorem analyzeActivity_of_no_session (host : Host) (params : AnalyzeParams)
    (session s1 : Option Session) (e : String) (c0 : List Call)
    (hc : createSessionIfNeeded host session = { result := .error e, session := s1, calls := c0 }) :
    analyzeActivity host params session = { result := .error e, session := s1, calls := c0 } := by
  simp only [analyzeActivity, bind_apply, hc]

/-- The analyzer calls nothing but the model and its session. -/
theorem analyzeActivity_calls (host : Host) (params : AnalyzeParams)
    (session : Option Session) :
    ∀ c ∈ (analyzeActivity host params session).calls, c.isModelCall = true := by
  have hcreate : ∀ l : List Call, (∀ c ∈ l, c = Call.availability ∨ c = Call.create) →
      ∀ c ∈ l, c.isModelCall = true := by
    intro l hl c hc
    rcases hl c hc with h | h <;> rw [h] <;> rfl
  cases hres : (createSessionIfNeeded host session).result with
  | error e =>
    have hc : createSessionIfNeeded host session =
        { result := .error e, session := (createSessionIfNeeded host session).session,
          calls := (createSessionIfNeeded host session).calls } := by
      rw [← hres]
    rw [analyzeActivity_of_no_session host params session _ e _ hc]
    simp only
    cases session with
    | some s0 => rw [createSessionIfNeeded_live] at hres; simp at hres
    | none =>
      obtain ⟨l, hl, ⟨e1, he⟩ | ⟨lm, s1, -, -, hs1⟩⟩ := createSessionIfNeeded_empty host
      · rw [he]; exact hcreate l hl
      · rw [hs1] at hres; simp at hres
  | ok s =>
    obtain ⟨l, hl, hc, -⟩ := createSessionIfNeeded_ok host session s hres
    have hl1 := hcreate l hl
    have key : ∃ extra, (analyzeActivity host params session).calls = l ++ extra ∧
        ∀ c ∈ extra, c.isModelCall = true := by
      simp only [analyzeActivity, bind_apply, hc, jsTry_apply, hostCall_apply, ofExcept_apply]
      cases hp : s.prompt (promptText params.userGoal params.tabUrl params.tabTitle)
          params.screenshot with
      | error e =>
        cases hd : s.destroy <;>
          exact ⟨[.prompt s.id (promptText params.userGoal params.tabUrl params.tabTitle)
            params.screenshot, .destroy s.id], by simp [resetSession, hd],
            by simp [Call.isModelCall]⟩
      | ok reply =>
        cases hsan : sanitizeJSON reply with
        | error e =>
          cases hd : s.destroy <;>
            exact ⟨[.prompt s.id (promptText params.userGoal params.tabUrl params.tabTitle)
              params.screenshot, .destroy s.id], by simp [resetSession, hd, hsan],
              by simp [Call.isModelCall]⟩
        | ok cleaned =>
          cases hd : s.destroy with
          | error e =>
            exact ⟨[.prompt s.id (promptText params.userGoal params.tabUrl params.tabTitle)
              params.screenshot, .destroy s.id, .destroy s.id],
              by simp [resetSession, hd, hsan], by simp [Call.isModelCall]⟩
          | ok u =>
            cases hj : host.jsonParse cleaned <;>
              exact ⟨[.prompt s.id (promptText params.userGoal params.tabUrl params.tabTitle)
                params.screenshot, .destroy s.id], by simp [resetSession, hd, hsan, hj],
                by simp [Call.isModelCall]⟩
    obtain ⟨extra, hcalls, hextra⟩ := key
    intro c hmem
    rw [hcalls] at hmem
    rcases List.mem_append.mp hmem with h | h
    · exact hl1 c h
    · exact hextra c h

/-- C4 (amended).  After every call to `analyzeActivity` in which the `destroy()` of the
session in use (the one `createSessionIfNeeded` hands to the call: the live one, or the one
just created when there was none) does not throw, the handle is empty, whether the call
returns a verdict or fails and whatever the handle was before. -/
theorem analyzeActivity_clears_session (host : Host) (params : AnalyzeParams)
    (session : Option Session)
    (hdestroy : ∀ s : Session,
      (createSessionIfNeeded host session).result = .ok s → s.destroy = .ok ()) :
    (analyzeActivity host params session).session = none := by
  cases hres : (createSessionIfNeeded host session).result with
  | error e =>
    cases session with
    | some s0 => rw [createSessionIfNeeded_live] at hres; simp at hres
    | none =>
      obtain ⟨l, -, ⟨e1, he⟩ | ⟨lm, s1, -, -, hs1⟩⟩ := createSessionIfNeeded_empty host
      · rw [analyzeActivity_of_no_session host params none none e1 l he]
      · rw [hs1] at hres; simp at hres
  | ok s =>
    obtain ⟨l, -, hc, -⟩ := createSessionIfNeeded_ok host session s hres
    rw [analyzeActivity_of_session host params session s l hc (hdestroy s hres)]

/-- C4, witness: the handle holds a session whose `destroy()` completes, while the session
that the host's `create` would give, which this call never uses, has a `destroy()` that
throws. -/
theorem analyzeActivity_clears_session_witness :
    (analyzeActivity
      (sampleHost (some (sampleModel "available"
        (sampleSession (.ok "\x7b\x7d") (.error "session already destroyed")))))
      sampleParams (some (sampleSession (.ok "\x7b\x7d") (.ok ())))).session = none :=
  analyzeActivity_clears_session _ _ _ (by
    intro s h
    have e : s = sampleSession (.ok "\x7b\x7d") (.ok ()) := (Except.ok.inj h).symm
    rw [e]
    rfl)

/-- C4, counterexample.  No session at the start; the host gives a session whose `destroy()`
throws.  The reply is sanitised, `resetSession` fails in the `try` block and again in the
`catch` block, and the handle still holds the session when the call has failed. -/
theorem analyzeActivity_keeps_session_when_destroy_throws :
    (analyzeActivity
      (sampleHost (some (sampleModel "available"
        (sampleSession (.ok "\x7b\x7d") (.error "session already destroyed")))))
      sampleParams none).session.isSome = true ∧
    (analyzeActivity
      (sampleHost (some (sampleModel "available"
        (sampleSession (.ok "\x7b\x7d") (.error "session already destroyed")))))
      sampleParams none).calls =
      [.availability, .create,
        .prompt 1 (promptText "Study React" "https://youtube.com/watch?v=X" "Funny Cat")
          { bytes := "AAAA" },
        .destroy 1, .destroy 1] :=
  ⟨rfl, rfl⟩

/-- Once `analyzeActivity` holds a session whose `destroy()` completes and that session
answers the prompt with a reply whose sanitised text is `cleaned`, the result of
`analyzeActivity` is the result of `JSON.parse` on `cleaned`: a parse error is passed on, and
a parsed value is returned without any look at its structure. -/
theorem analyzeActivity_returns_parse_result (host : Host) (params : AnalyzeParams)
    (session : Option Session) (s : Session) (reply cleaned : String)
    (hs : (createSessionIfNeeded host session).result = .ok s)
    (hd : s.destroy = .ok ())
    (hp : s.prompt (promptText params.userGoal params.tabUrl params.tabTitle)
      params.screenshot = .ok reply)
    (hclean : sanitizeJSON reply = .ok cleaned) :
    (analyzeActivity host params session).result = host.jsonParse cleaned := by
  obtain ⟨l, -, hc, -⟩ := createSessionIfNeeded_ok host session s hs
  rw [analyzeActivity_of_session host params session s l hc hd]
  simp [hp, hclean, bind, Except.bind]

/-- Example: the session answers with the verdict of the specification's scenario inside a
fence, and the analyzer returns what `JSON.parse` makes of the text between the braces. -/
theorem analyzeActivity_returns_parse_result_witness :
    (analyzeActivity
      (sampleHost (some (sampleModel "available" (sampleSession
        (.ok "```json\n\x7b\"onTrack\":false,\"confidence\":85,\"reason\":\"Off-topic video\"\x7d\n```")
        (.ok ())))))
      sampleParams none).result =
    sampleParse "\x7b\"onTrack\":false,\"confidence\":85,\"reason\":\"Off-topic video\"\x7d" :=
  analyzeActivity_returns_parse_result _ _ _
    (sampleSession
      (.ok "```json\n\x7b\"onTrack\":false,\"confidence\":85,\"reason\":\"Off-topic video\"\x7d\n```")
      (.ok ()))
    "```json\n\x7b\"onTrack\":false,\"confidence\":85,\"reason\":\"Off-topic video\"\x7d\n```"
    "\x7b\"onTrack\":false,\"confidence\":85,\"reason\":\"Off-topic video\"\x7d"
    rfl rfl rfl (by decide)

/-- C5 (the code at the failing input).  The session answers with the text of the empty
object.  `JSON.parse` accepts it and `analyzeActivity` returns the empty object instead of
failing, although the empty object is not a structurally valid verdict: it has no boolean
`onTrack`, no `confidence` and no text `reason`, which is what the documentation comment of
`analyzeActivity` says the function returns. -/
theorem analyzeActivity_returns_invalid_verdict :
    (analyzeActivity
      (sampleHost (some (sampleModel "available" (sampleSession (.ok "\x7b\x7d") (.ok ())))))
      sampleParams none).result = .ok (.obj []) ∧
    isAnalysisVerdict (.obj []) = false :=
  ⟨rfl, rfl⟩

/-! ## The activity checker -/

/-- With no alert stored the check reads the alert and stops. -/
theorem checkUserActivity_absent (host : Host) (session : Option Session)
    (h : host.storageGetActiveAlert = .ok none) :
    checkUserActivity host session =
      { result := .ok (), session := session, calls := [.storageGet "activeAlert"] } := by
  simp [checkUserActivity, checkUserActivityBody, getActiveAlert, h]

/-- With a disabled alert stored the check reads the alert and stops. -/
theorem checkUserActivity_disabled (host : Host) (session : Option Session) (alert : GoalAlert)
    (h : host.storageGetActiveAlert = .ok (some alert)) (hen : alert.enabled = false) :
    checkUserActivity host session =
      { result := .ok (), session := session, calls := [.storageGet "activeAlert"] } := by
  simp [checkUserActivity, checkUserActivityBody, getActiveAlert, h, hen]

/-- C6.  When no alert is stored, or the stored alert has `enabled` false, one run of
`checkUserActivity` makes no `captureVisibleTab` call, no `analyzeActivity` call and no call
to the model, and creates no notification by either path. -/
theorem checkUserActivity_idle_without_alert (host : Host) (session : Option Session)
    (h : host.storageGetActiveAlert = .ok none ∨
      ∃ alert, host.storageGetActiveAlert = .ok (some alert) ∧ alert.enabled = false) :
    (checkUserActivity host session).calls.count Call.captureVisibleTab = 0 ∧
    (checkUserActivity host session).calls.filter Call.isAnalyze = [] ∧
    (checkUserActivity host session).calls.filter Call.isModelCall = [] ∧
    (checkUserActivity host session).calls.filter Call.isNotification = [] := by
  have hcalls : (checkUserActivity host session).calls = [.storageGet "activeAlert"] := by
    rcases h with h | ⟨alert, h, hen⟩
    · rw [checkUserActivity_absent host session h]
    · rw [checkUserActivity_disabled host session alert h hen]
  rw [hcalls]
  exact ⟨rfl, rfl, rfl, rfl⟩

/-- C6, witness: a disabled alert is stored. -/
theorem checkUserActivity_idle_without_alert_witness :
    (checkUserActivity hostDisabledAlert none).calls.count Call.captureVisibleTab = 0 ∧
    (checkUserActivity hostDisabledAlert none).calls.filter Call.isAnalyze = [] ∧
    (checkUserActivity hostDisabledAlert none).calls.filter Call.isModelCall = [] ∧
    (checkUserActivity hostDisabledAlert none).calls.filter Call.isNotification = [] :=
  checkUserActivity_idle_without_alert hostDisabledAlert none (Or.inr ⟨_, rfl, rfl⟩)

/-- C7.  With an enabled alert and an active tab, when `captureVisibleTab` fails, exactly one
notification is created by either path, it is the error notification, its title is
`❌ Watcher Error`, and neither `analyzeActivity` nor the model is called. -/
theorem checkUserActivity_capture_failure (host : Host) (session : Option Session)
    (alert : GoalAlert) (tab : Tab) (e : String)
    (halert : host.storageGetActiveAlert = .ok (some alert)) (hen : alert.enabled = true)
    (htab : host.tabsQuery = .ok (some tab)) (hcap : host.captureVisibleTab = .error e) :
    (checkUserActivity host session).calls.filter Call.isNotification =
      [.notificationsCreate none (errorNotification host e)] ∧
    (errorNotification host e).title = "❌ Watcher Error" ∧
    (checkUserActivity host session).calls.filter Call.isAnalyze = [] ∧
    (checkUserActivity host session).calls.filter Call.isModelCall = [] := by
  have hcalls : (checkUserActivity host session).calls =
      [.storageGet "activeAlert", .tabsQuery, .captureVisibleTab,
        .notificationsCreate none (errorNotification host e)] := by
    simp [checkUserActivity, checkUserActivityBody, getActiveAlert, halert, hen, htab, hcap]
  rw [hcalls]
  exact ⟨rfl, rfl, rfl, rfl⟩

/-- C7, witness: the sample host with a capture that is refused. -/
theorem checkUserActivity_capture_failure_witness :
    (checkUserActivity hostCaptureRefused none).calls.filter Call.isNotification =
      [.notificationsCreate none (errorNotification hostCaptureRefused "permission denied")] ∧
    (errorNotification hostCaptureRefused "permission denied").title = "❌ Watcher Error" ∧
    (checkUserActivity hostCaptureRefused none).calls.filter Call.isAnalyze = [] ∧
    (checkUserActivity hostCaptureRefused none).calls.filter Call.isModelCall = [] :=
  checkUserActivity_capture_failure hostCaptureRefused none
    ⟨"Study React", true, 0⟩ ⟨"https://youtube.com/watch?v=X", "Funny Cat"⟩ "permission denied"
    rfl rfl rfl rfl

theorem stepsRun_append (l1 l2 : List Call) : stepsRun (l1 ++ l2) = stepsRun l1 ++ stepsRun l2 := by
  simp [stepsRun, List.filterMap_append]

theorem errorNotifications_append (l1 l2 : List Call) :
    errorNotifications (l1 ++ l2) = errorNotifications l1 ++ errorNotifications l2 := by
  induction l1 with
  | nil => rfl
  | cons c rest ih =>
    cases c with
    | notificationsCreate id options =>
      cases id with
      | none => simp [errorNotifications, ih]
      | some i => simp [errorNotifications, ih]
    | _ => simp [errorNotifications, ih]

theorem stepsRun_modelCalls (l : List Call) (h : ∀ c ∈ l, c.isModelCall = true) :
    stepsRun l = [] := by
  induction l with
  | nil => rfl
  | cons c rest ih =>
    have hc := h c (by simp)
    have hrest := ih (fun d hd => h d (by simp [hd]))
    cases c <;> simp [Call.isModelCall] at hc <;> simpa [stepsRun, Call.step] using hrest

theorem errorNotifications_modelCalls (l : List Call) (h : ∀ c ∈ l, c.isModelCall = true) :
    errorNotifications l = [] := by
  induction l with
  | nil => rfl
  | cons c rest ih =>
    have hc := h c (by simp)
    have hrest := ih (fun d hd => h d (by simp [hd]))
    cases c <;> simp [Call.isModelCall] at hc <;> simpa [errorNotifications] using hrest

/-- The calls of a run that fails in `analyzeActivity`. -/
theorem checkUserActivity_calls_analyze (host : Host) (session : Option Session) (m : String)
    (alert : GoalAlert) (tab : Tab) (dataUrl : String) (blob : Blob)
    (halert : host.storageGetActiveAlert = .ok (some alert)) (hen : alert.enabled = true)
    (htab : host.tabsQuery = .ok (some tab)) (hcap : host.captureVisibleTab = .ok dataUrl)
    (hdec : host.fetchBlob dataUrl = .ok blob)
    (h : (analyzeActivity host
      { userGoal := alert.goal, tabUrl := tab.url, tabTitle := tab.title, screenshot := blob }
      session).result = .error m) :
    (checkUserActivity host session).calls =
      [.storageGet "activeAlert", .tabsQuery, .captureVisibleTab, .fetch dataUrl,
        .analyzeActivity
          { userGoal := alert.goal, tabUrl := tab.url, tabTitle := tab.title, screenshot := blob }] ++
      (analyzeActivity host
        { userGoal := alert.goal, tabUrl := tab.url, tabTitle := tab.title, screenshot := blob }
        session).calls ++
      [.notificationsCreate none (errorNotification host m)] := by
  simp [checkUserActivity, checkUserActivityBody, getActiveAlert, dataUrlToBlob, halert, hen,
    htab, hcap, hdec, h]

/-- The calls of a run that fails when it creates the verdict notification. -/
theorem checkUserActivity_calls_notify (host : Host) (session : Option Session) (m : String)
    (alert : GoalAlert) (tab : Tab) (dataUrl : String) (blob : Blob) (analysis : Json)
    (onTrack reason : Option Json)
    (halert : host.storageGetActiveAlert = .ok (some alert)) (hen : alert.enabled = true)
    (htab : host.tabsQuery = .ok (some tab)) (hcap : host.captureVisibleTab = .ok dataUrl)
    (hdec : host.fetchBlob dataUrl = .ok blob)
    (han : (analyzeActivity host
      { userGoal := alert.goal, tabUrl := tab.url, tabTitle := tab.title, screenshot := blob }
      session).result = .ok analysis)
    (hon : analysis.getProp "onTrack" = .ok onTrack)
    (hre : analysis.getProp "reason" = .ok reason)
    (h : host.notificationsCreate ("watcher_" ++ toString host.now)
      (verdictNotification host alert.goal onTrack reason) = .error m) :
    (checkUserActivity host session).calls =
      [.storageGet "activeAlert", .tabsQuery, .captureVisibleTab, .fetch dataUrl,
        .analyzeActivity
          { userGoal := alert.goal, tabUrl := tab.url, tabTitle := tab.title, screenshot := blob }] ++
      (analyzeActivity host
        { userGoal := alert.goal, tabUrl := tab.url, tabTitle := tab.title, screenshot := blob }
        session).calls ++
      [.notificationsCreate (some ("watcher_" ++ toString host.now))
          (verdictNotification host alert.goal onTrack reason),
        .notificationsCreate none (errorNotification host m)] := by
  simp [checkUserActivity, checkUserActivityBody, getActiveAlert, dataUrlToBlob, halert, hen,
    htab, hcap, hdec, han, hon, hre, h]

/-- The calls of a run that fails while it reads a property of the analysis to build the
verdict notification. -/
theorem checkUserActivity_calls_build (host : Host) (session : Option Session) (m : String)
    (alert : GoalAlert) (tab : Tab) (dataUrl : String) (blob : Blob) (analysis : Json)
    (halert : host.storageGetActiveAlert = .ok (some alert)) (hen : alert.enabled = true)
    (htab : host.tabsQuery = .ok (some tab)) (hcap : host.captureVisibleTab = .ok dataUrl)
    (hdec : host.fetchBlob dataUrl = .ok blob)
    (han : (analyzeActivity host
      { userGoal := alert.goal, tabUrl := tab.url, tabTitle := tab.title, screenshot := blob }
      session).result = .ok analysis)
    (h : analysis.getProp "onTrack" = .error m ∨
      ∃ onTrack, analysis.getProp "onTrack" = .ok onTrack ∧
        analysis.getProp "reason" = .error m) :
    (checkUserActivity host session).result = .ok () ∧
    (checkUserActivity host session).calls =
      [.storageGet "activeAlert", .tabsQuery, .captureVisibleTab, .fetch dataUrl,
        .analyzeActivity
          { userGoal := alert.goal, tabUrl := tab.url, tabTitle := tab.title, screenshot := blob }] ++
      (analyzeActivity host
        { userGoal := alert.goal, tabUrl := tab.url, tabTitle := tab.title, screenshot := blob }
        session).calls ++
      [.notificationsCreate none (errorNotification host m)] := by
  rcases h with h | ⟨onTrack, hon, h⟩
  · constructor <;>
      simp [checkUserActivity, checkUserActivityBody, getActiveAlert, dataUrlToBlob, halert,
        hen, htab, hcap, hdec, han, h]
  · constructor <;>
      simp [checkUserActivity, checkUserActivityBody, getActiveAlert, dataUrlToBlob, halert,
        hen, htab, hcap, hdec, han, hon, h]

/-- C8.  When one of the six steps of `checkUserActivity` fails with message `m`, the run of
`checkUserActivity` itself completes without an error, carries out no step twice, and creates
exactly one error notification, whose message is `Error: ` followed by `m`. -/
theorem checkUserActivity_reports_failure (host : Host) (session : Option Session) (m : String)
    (h : StepFails host session m) :
    (checkUserActivity host session).result = .ok () ∧
    (stepsRun (checkUserActivity host session).calls).Nodup ∧
    errorNotifications (checkUserActivity host session).calls = [errorNotification host m] ∧
    (errorNotification host m).message = "Error: " ++ m := by
  refine ⟨?_, ?_, ?_, rfl⟩
  · cases h with
    | alertRead h => simp [checkUserActivity, checkUserActivityBody, getActiveAlert, h]
    | tabQuery alert halert hen h =>
      simp [checkUserActivity, checkUserActivityBody, getActiveAlert, halert, hen, h]
    | capture alert tab halert hen htab h =>
      simp [checkUserActivity, checkUserActivityBody, getActiveAlert, halert, hen, htab, h]
    | decode alert tab dataUrl halert hen htab hcap h =>
      simp [checkUserActivity, checkUserActivityBody, getActiveAlert, dataUrlToBlob, halert, hen,
        htab, hcap, h]
    | analyze alert tab dataUrl blob halert hen htab hcap hdec h =>
      simp [checkUserActivity, checkUserActivityBody, getActiveAlert, dataUrlToBlob, halert, hen,
        htab, hcap, hdec, h]
    | readOnTrack alert tab dataUrl blob analysis halert hen htab hcap hdec han h =>
      exact (checkUserActivity_calls_build host session m alert tab dataUrl blob analysis halert
        hen htab hcap hdec han (Or.inl h)).1
    | readReason alert tab dataUrl blob analysis onTrack halert hen htab hcap hdec han hon h =>
      exact (checkUserActivity_calls_build host session m alert tab dataUrl blob analysis halert
        hen htab hcap hdec han (Or.inr ⟨onTrack, hon, h⟩)).1
    | notify alert tab dataUrl blob analysis onTrack reason halert hen htab hcap hdec han hon hre h =>
      simp [checkUserActivity, checkUserActivityBody, getActiveAlert, dataUrlToBlob, halert, hen,
        htab, hcap, hdec, han, hon, hre, h]
  · cases h with
    | alertRead h =>
      simp [checkUserActivity, checkUserActivityBody, getActiveAlert, h, stepsRun, Call.step]
    | tabQuery alert halert hen h =>
      simp [checkUserActivity, checkUserActivityBody, getActiveAlert, halert, hen, h, stepsRun,
        Call.step]
    | capture alert tab halert hen htab h =>
      simp [checkUserActivity, checkUserActivityBody, getActiveAlert, halert, hen, htab, h,
        stepsRun, Call.step]
    | decode alert tab dataUrl halert hen htab hcap h =>
      simp [checkUserActivity, checkUserActivityBody, getActiveAlert, dataUrlToBlob, halert, hen,
        htab, hcap, h, stepsRun, Call.step]
    | analyze alert tab dataUrl blob halert hen htab hcap hdec h =>
      rw [checkUserActivity_calls_analyze host session m alert tab dataUrl blob halert hen htab
        hcap hdec h, stepsRun_append, stepsRun_append,
        stepsRun_modelCalls _ (analyzeActivity_calls host _ session)]
      simp [stepsRun, Call.step]
    | readOnTrack alert tab dataUrl blob analysis halert hen htab hcap hdec han h =>
      rw [(checkUserActivity_calls_build host session m alert tab dataUrl blob analysis halert
        hen htab hcap hdec han (Or.inl h)).2, stepsRun_append, stepsRun_append,
        stepsRun_modelCalls _ (analyzeActivity_calls host _ session)]
      simp [stepsRun, Call.step]
    | readReason alert tab dataUrl blob analysis onTrack halert hen htab hcap hdec han hon h =>
      rw [(checkUserActivity_calls_build host session m alert tab dataUrl blob analysis halert
        hen htab hcap hdec han (Or.inr ⟨onTrack, hon, h⟩)).2, stepsRun_append, stepsRun_append,
        stepsRun_modelCalls _ (analyzeActivity_calls host _ session)]
      simp [stepsRun, Call.step]
    | notify alert tab dataUrl blob analysis onTrack reason halert hen htab hcap hdec han hon hre h =>
      rw [checkUserActivity_calls_notify host session m alert tab dataUrl blob analysis onTrack
        reason halert hen htab hcap hdec han hon hre h, stepsRun_append, stepsRun_append,
        stepsRun_modelCalls _ (analyzeActivity_calls host _ session)]
      simp [stepsRun, Call.step]
  · cases h with
    | alertRead h =>
      simp [checkUserActivity, checkUserActivityBody, getActiveAlert, h, errorNotifications]
    | tabQuery alert halert hen h =>
      simp [checkUserActivity, checkUserActivityBody, getActiveAlert, halert, hen, h,
        errorNotifications]
    | capture alert tab halert hen htab h =>
      simp [checkUserActivity, checkUserActivityBody, getActiveAlert, halert, hen, htab, h,
        errorNotifications]
    | decode alert tab dataUrl halert hen htab hcap h =>
      simp [checkUserActivity, checkUserActivityBody, getActiveAlert, dataUrlToBlob, halert, hen,
        htab, hcap, h, errorNotifications]
    | analyze alert tab dataUrl blob halert hen htab hcap hdec h =>
      rw [checkUserActivity_calls_analyze host session m alert tab dataUrl blob halert hen htab
        hcap hdec h, errorNotifications_append, errorNotifications_append,
        errorNotifications_modelCalls _ (analyzeActivity_calls host _ session)]
      simp [errorNotifications]
    | readOnTrack alert tab dataUrl blob analysis halert hen htab hcap hdec han h =>
      rw [(checkUserActivity_calls_build host session m alert tab dataUrl blob analysis halert
        hen htab hcap hdec han (Or.inl h)).2, errorNotifications_append,
        errorNotifications_append,
        errorNotifications_modelCalls _ (analyzeActivity_calls host _ session)]
      simp [errorNotifications]
    | readReason alert tab dataUrl blob analysis onTrack halert hen htab hcap hdec han hon h =>
      rw [(checkUserActivity_calls_build host session m alert tab dataUrl blob analysis halert
        hen htab hcap hdec han (Or.inr ⟨onTrack, hon, h⟩)).2, errorNotifications_append,
        errorNotifications_append,
        errorNotifications_modelCalls _ (analyzeActivity_calls host _ session)]
      simp [errorNotifications]
    | notify alert tab dataUrl blob analysis onTrack reason halert hen htab hcap hdec han hon hre h =>
      rw [checkUserActivity_calls_notify host session m alert tab dataUrl blob analysis onTrack
        reason halert hen htab hcap hdec han hon hre h, errorNotifications_append,
        errorNotifications_append,
        errorNotifications_modelCalls _ (analyzeActivity_calls host _ session)]
      simp [errorNotifications]

/-- C8, witness: the model answers `null`, the analyzer returns `null`, and the read of
`analysis.onTrack` raises a `TypeError` while the verdict notification is built. -/
theorem checkUserActivity_reports_failure_witness :
    (checkUserActivity hostNullReply none).result = .ok () ∧
    (stepsRun (checkUserActivity hostNullReply none).calls).Nodup ∧
    errorNotifications (checkUserActivity hostNullReply none).calls =
      [errorNotification hostNullReply "Cannot read properties of null (reading 'onTrack')"] ∧
    (errorNotification hostNullReply
      "Cannot read properties of null (reading 'onTrack')").message =
      "Error: " ++ "Cannot read properties of null (reading 'onTrack')" :=
  checkUserActivity_reports_failure hostNullReply none
    "Cannot read properties of null (reading 'onTrack')"
    (StepFails.readOnTrack ⟨"Study React", true, 0⟩ ⟨"https://youtube.com/watch?v=X", "Funny Cat"⟩
      "data:image/png;base64,AAAA" ⟨"AAAA"⟩ .null rfl rfl rfl rfl rfl rfl rfl)

/-- The cases of `StepFails` leave nothing out: whenever the `try` block of
`checkUserActivity` ends in a failure with message `m`, one of its steps failed with `m`. -/
theorem stepFails_of_body_error (host : Host) (session : Option Session) (m : String)
    (h : (checkUserActivityBody host session).result = .error m) : StepFails host session m := by
  cases halert : host.storageGetActiveAlert with
  | error e =>
    simp [checkUserActivityBody, getActiveAlert, halert] at h
    exact .alertRead (by rw [halert, h])
  | ok stored =>
    cases stored with
    | none => simp [checkUserActivityBody, getActiveAlert, halert] at h
    | some alert =>
      cases hen : alert.enabled with
      | false => simp [checkUserActivityBody, getActiveAlert, halert, hen] at h
      | true =>
        cases htab : host.tabsQuery with
        | error e =>
          simp [checkUserActivityBody, getActiveAlert, halert, hen, htab] at h
          exact .tabQuery alert halert hen (by rw [htab, h])
        | ok active =>
          cases active with
          | none => simp [checkUserActivityBody, getActiveAlert, halert, hen, htab] at h
          | some tab =>
            cases hcap : host.captureVisibleTab with
            | error e =>
              simp [checkUserActivityBody, getActiveAlert, halert, hen, htab, hcap] at h
              exact .capture alert tab halert hen htab (by rw [hcap, h])
            | ok dataUrl =>
              cases hdec : host.fetchBlob dataUrl with
              | error e =>
                simp [checkUserActivityBody, getActiveAlert, dataUrlToBlob, halert, hen, htab,
                  hcap, hdec] at h
                exact .decode alert tab dataUrl halert hen htab hcap (by rw [hdec, h])
              | ok blob =>
                cases han : (analyzeActivity host
                    { userGoal := alert.goal, tabUrl := tab.url, tabTitle := tab.title,
                      screenshot := blob } session).result with
                | error e =>
                  simp [checkUserActivityBody, getActiveAlert, dataUrlToBlob, halert, hen, htab,
                    hcap, hdec, han] at h
                  exact .analyze alert tab dataUrl blob halert hen htab hcap hdec
                    (by rw [han, h])
                | ok analysis =>
                  cases hon : analysis.getProp "onTrack" with
                  | error e =>
                    simp [checkUserActivityBody, getActiveAlert, dataUrlToBlob, halert, hen,
                      htab, hcap, hdec, han, hon] at h
                    exact .readOnTrack alert tab dataUrl blob analysis halert hen htab hcap hdec
                      han (by rw [hon, h])
                  | ok onTrack =>
                    cases hre : analysis.getProp "reason" with
                    | error e =>
                      simp [checkUserActivityBody, getActiveAlert, dataUrlToBlob, halert, hen,
                        htab, hcap, hdec, han, hon, hre] at h
                      exact .readReason alert tab dataUrl blob analysis onTrack halert hen htab
                        hcap hdec han hon (by rw [hre, h])
                    | ok reason =>
                      cases hnc : host.notificationsCreate ("watcher_" ++ toString host.now)
                          (verdictNotification host alert.goal onTrack reason) with
                      | error e =>
                        simp [checkUserActivityBody, getActiveAlert, dataUrlToBlob, halert, hen,
                          htab, hcap, hdec, han, hon, hre, hnc] at h
                        exact .notify alert tab dataUrl blob analysis onTrack reason halert hen
                          htab hcap hdec han hon hre (by rw [hnc, h])
                      | ok id =>
                        by_cases hid : id = "" <;>
                          simp [checkUserActivityBody, getActiveAlert, dataUrlToBlob, halert,
                            hen, htab, hcap, hdec, han, hon, hre, hnc, hid] at h

/-! ## No fence in the sanitised text -/

theorem hasFence_sanitizeChars (r : List Char) : hasFence (sanitizeChars r) = false := by
  have hf : hasFence (stripFences (trim r)) = false := hasFence_stripFences _
  rcases cutBraces_cases (stripFences (trim r)) with ⟨a, m, b, hl, ha, hb⟩ | hid
  · rw [sanitizeChars_eq, hl, cutBraces_append a m b ha hb]
    rw [hl, braced_assoc] at hf
    exact hasFence_middle _ _ _ hf
  · rw [sanitizeChars_eq, hid]
    exact hf

/-- C14.  For every non-empty input text, `sanitizeJSON` returns a text that contains no
three consecutive backticks: the scan that removes the fences leaves none behind, and the
extraction of the braces only takes a part of what the scan leaves. -/
theorem sanitizeJSON_output_has_no_fence (r : String) (hr : r ≠ "") :
    ∃ s, sanitizeJSON r = .ok s ∧ hasFence s.data = false :=
  ⟨String.mk (sanitizeChars r.data), sanitizeJSON_ok r hr, hasFence_sanitizeChars r.data⟩

/-- C14, witness: five backticks, a blank and two more backticks before a letter; two
backticks in a row are all that the scan leaves. -/
theorem sanitizeJSON_output_has_no_fence_witness :
    "````` ``x" ≠ "" ∧ ∃ s, sanitizeJSON "````` ``x" = .ok s ∧ hasFence s.data = false :=
  ⟨by decide, sanitizeJSON_output_has_no_fence "````` ``x" (by decide)⟩

/-! ## Calls of `createSessionIfNeeded` in a row -/

/-- While the handle is live a sequence of calls makes no call to the host and keeps the
handle. -/
theorem createSessionRepeatedly_live (s : Session) : ∀ hosts : List Host,
    createSessionRepeatedly hosts (some s) = (some s, []) := by
  intro hosts
  induction hosts with
  | nil => rfl
  | cons host rest ih =>
    simp only [createSessionRepeatedly, createSessionIfNeeded_live, ih, List.append_nil]

/-- With an empty handle and a `create` that does not fail, one call either leaves the handle
empty without calling `create`, or fills the handle with one call of `create`. -/
theorem createSessionIfNeeded_empty_count (host : Host)
    (hcreate : ∀ lm, getLanguageModel host = some lm → ∃ s, lm.create = .ok s) :
    ((createSessionIfNeeded host none).session = none ∧
      (createSessionIfNeeded host none).calls.count Call.create = 0) ∨
    (∃ s, (createSessionIfNeeded host none).session = some s ∧
      (createSessionIfNeeded host none).calls.count Call.create = 1) := by
  cases hlm : getLanguageModel host with
  | none => left; simp [createSessionIfNeeded, hlm]
  | some lm =>
    cases hav : lm.availability with
    | none => left; simp [createSessionIfNeeded, hlm, hav]
    | some probe =>
      cases hout : probe.outcome with
      | error e => left; simp [createSessionIfNeeded, hlm, hav, hout]
      | ok status =>
        by_cases hst : status = "unavailable"
        · left; simp [createSessionIfNeeded, hlm, hav, hout, hst]
        · obtain ⟨s, hs⟩ := hcreate lm hlm
          right
          exact ⟨s, by simp [createSessionIfNeeded, hlm, hav, hout, hst, hs],
            by simp [createSessionIfNeeded, hlm, hav, hout, hst, hs]⟩

theorem createSessionRepeatedly_count : ∀ (hosts : List Host) (session : Option Session),
    (∀ host ∈ hosts, ∀ lm, getLanguageModel host = some lm → ∃ s, lm.create = .ok s) →
    (createSessionRepeatedly hosts session).2.count Call.create ≤ 1 := by
  intro hosts
  induction hosts with
  | nil => intro session _; simp [createSessionRepeatedly]
  | cons host rest ih =>
    intro session hcreate
    cases session with
    | some s => rw [createSessionRepeatedly_live]; simp
    | none =>
      have hrest : ∀ h ∈ rest, ∀ lm, getLanguageModel h = some lm → ∃ s, lm.create = .ok s :=
        fun h hh => hcreate h (List.mem_cons_of_mem _ hh)
      simp only [createSessionRepeatedly, List.count_append]
      rcases createSessionIfNeeded_empty_count host (hcreate host (List.mem_cons_self _ _)) with
        ⟨h1, h2⟩ | ⟨s, h1, h2⟩
      · rw [h1, h2]
        have := ih none hrest
        omega
      · rw [h1, h2, createSessionRepeatedly_live]
        simp

/-- One call that runs its three stretches without another call in between does what
`createSessionIfNeeded` does: same result, same handle afterwards, same calls. -/
theorem runSchedule_single_call (host : Host) (session : Option Session) :
    (runSchedule host [0, 0, 0] ⟨[.notStarted], session, []⟩).phases =
      [.finished (createSessionIfNeeded host session).result] ∧
    (runSchedule host [0, 0, 0] ⟨[.notStarted], session, []⟩).session =
      (createSessionIfNeeded host session).session ∧
    (runSchedule host [0, 0, 0] ⟨[.notStarted], session, []⟩).calls =
      (createSessionIfNeeded host session).calls := by
  cases session with
  | some live =>
    simp [runSchedule, advance, createSessionStep, createSessionIfNeeded]
  | none =>
    cases hlm : getLanguageModel host with
    | none => simp [runSchedule, advance, createSessionStep, createSessionIfNeeded, hlm]
    | some lm =>
      cases hav : lm.availability with
      | none => simp [runSchedule, advance, createSessionStep, createSessionIfNeeded, hlm, hav]
      | some probe =>
        cases hout : probe.outcome with
        | error e =>
          simp [runSchedule, advance, createSessionStep, createSessionIfNeeded, hlm, hav, hout]
        | ok status =>
          by_cases hst : status = "unavailable"
          · simp [runSchedule, advance, createSessionStep, createSessionIfNeeded, hlm, hav,
              hout, hst]
          · cases hcr : lm.create <;>
              simp [runSchedule, advance, createSessionStep, createSessionIfNeeded, hlm, hav,
                hout, hst, hcr]

/-- C11 (amended).  While the handle holds a session, `createSessionIfNeeded` returns that
session, calls neither `availability` nor `create` and leaves the handle as it is.  With an
empty handle and a host that reports `unavailable`, it fails after the probe without calling
`create` and leaves the handle empty.  Across any sequence of calls with no reset in between
in which every call completes before the next one starts and the host's `create` does not
fail, `create` is called at most once. -/
theorem createSessionIfNeeded_idempotent_while_live :
    (∀ (host : Host) (s : Session),
      createSessionIfNeeded host (some s) =
        { result := .ok s, session := some s, calls := [] }) ∧
    (∀ (host : Host) (lm : LanguageModel) (probe : Probe),
      getLanguageModel host = some lm → lm.availability = some probe →
      probe.outcome = .ok "unavailable" →
      createSessionIfNeeded host none =
        { result := .error "AI model unavailable on this device", session := none,
          calls := [.availability] }) ∧
    (∀ (hosts : List Host) (session : Option Session),
      (∀ host ∈ hosts, ∀ lm, getLanguageModel host = some lm → ∃ s, lm.create = .ok s) →
      (createSessionRepeatedly hosts session).2.count Call.create ≤ 1) := by
  refine ⟨createSessionIfNeeded_live, ?_, createSessionRepeatedly_count⟩
  intro host lm probe hlm hav hout
  simp [createSessionIfNeeded, hlm, hav, hout]

/-- C11, counterexample.  First, two calls that overlap: both start while the handle is empty,
both await `availability()`, both call `create(...)`, and both return a session, so `create`
is called twice although nothing failed and nothing was reset.  Second, two calls one after
the other on a host whose `create` is rejected: the first call fails and leaves the handle
empty, so the second call probes and calls `create` again. -/
theorem createSessionIfNeeded_calls_create_twice :
    ((runSchedule hostAvailable [0, 1, 0, 1, 0, 1]
        ⟨[.notStarted, .notStarted], none, []⟩).calls =
        [.availability, .availability, .create, .create] ∧
      (runSchedule hostAvailable [0, 1, 0, 1, 0, 1]
        ⟨[.notStarted, .notStarted], none, []⟩).phases.map CreatePhase.returnedSession =
        [true, true]) ∧
    ((createSessionRepeatedly [hostCreateRejected, hostCreateRejected] none).2 =
        [.availability, .create, .availability, .create] ∧
      (createSessionRepeatedly [hostCreateRejected, hostCreateRejected] none).2.count
        Call.create = 2) := by
  decide

/-- C11, witness: a live handle; a host that reports `unavailable`; three calls in a row
on a host whose `create` succeeds. -/
theorem createSessionIfNeeded_idempotent_while_live_witness :
    createSessionIfNeeded hostUnavailable (some (sampleSession (.ok "") (.ok ()))) =
      { result := .ok (sampleSession (.ok "") (.ok ())),
        session := some (sampleSession (.ok "") (.ok ())), calls := [] } ∧
    createSessionIfNeeded hostUnavailable none =
      { result := .error "AI model unavailable on this device", session := none,
        calls := [.availability] } ∧
    (createSessionRepeatedly [hostAvailable, hostAvailable, hostAvailable] none).2.count
      Call.create ≤ 1 :=
  ⟨createSessionIfNeeded_idempotent_while_live.1 _ _,
    createSessionIfNeeded_idempotent_while_live.2.1 hostUnavailable
      (sampleModel "unavailable" (sampleSession (.ok "\x7b\x7d") (.ok ())))
      { outcome := .ok "unavailable", settlesBeforeTimeout := true } rfl rfl rfl,
    createSessionIfNeeded_idempotent_while_live.2.2 _ none (by
      intro host hmem lm hlm
      have hhost : host = hostAvailable := by
        simp only [List.mem_cons, List.mem_singleton, List.not_mem_nil, or_false, or_self]
          at hmem
        exact hmem
      rw [hhost] at hlm
      have hlm1 : lm = sampleModel "available" (sampleSession (.ok "\x7b\x7d") (.ok ())) :=
        (Option.some.inj hlm).symm
      exact ⟨sampleSession (.ok "\x7b\x7d") (.ok ()), by rw [hlm1]; rfl⟩)⟩

/-! ## The verdict notification -/

theorem verdictNotifications_append (l1 l2 : List Call) :
    verdictNotifications (l1 ++ l2) = verdictNotifications l1 ++ verdictNotifications l2 := by
  induction l1 with
  | nil => rfl
  | cons c rest ih =>
    cases c with
    | notificationsCreate id options =>
      cases id with
      | none => simp [verdictNotifications, ih]
      | some i => simp [verdictNotifications, ih]
    | _ => simp [verdictNotifications, ih]

theorem verdictNotifications_modelCalls (l : List Call) (h : ∀ c ∈ l, c.isModelCall = true) :
    verdictNotifications l = [] := by
  induction l with
  | nil => rfl
  | cons c rest ih =>
    have hc := h c (by simp)
    have hrest := ih (fun d hd => h d (by simp [hd]))
    cases c <;> simp [Call.isModelCall] at hc <;> simpa [verdictNotifications] using hrest

/-- The calls of a run in which the analyzer returns a value whose two properties can be
read: the steps, the calls of the analyzer, the creation of the verdict notification, and
after it at most one call that is not a verdict notification. -/
theorem checkUserActivity_calls_verdict (host : Host) (session : Option Session)
    (alert : GoalAlert) (tab : Tab) (dataUrl : String) (blob : Blob) (analysis : Json)
    (onTrack reason : Option Json)
    (halert : host.storageGetActiveAlert = .ok (some alert)) (hen : alert.enabled = true)
    (htab : host.tabsQuery = .ok (some tab)) (hcap : host.captureVisibleTab = .ok dataUrl)
    (hdec : host.fetchBlob dataUrl = .ok blob)
    (han : (analyzeActivity host
      { userGoal := alert.goal, tabUrl := tab.url, tabTitle := tab.title, screenshot := blob }
      session).result = .ok analysis)
    (hon : analysis.getProp "onTrack" = .ok onTrack)
    (hre : analysis.getProp "reason" = .ok reason) :
    ∃ after, verdictNotifications after = [] ∧
      (checkUserActivity host session).calls =
        [.storageGet "activeAlert", .tabsQuery, .captureVisibleTab, .fetch dataUrl,
          .analyzeActivity
            { userGoal := alert.goal, tabUrl := tab.url, tabTitle := tab.title,
              screenshot := blob }] ++
        (analyzeActivity host
          { userGoal := alert.goal, tabUrl := tab.url, tabTitle := tab.title, screenshot := blob }
          session).calls ++
        [.notificationsCreate (some ("watcher_" ++ toString host.now))
          (verdictNotification host alert.goal onTrack reason)] ++ after := by
  cases hnc : host.notificationsCreate ("watcher_" ++ toString host.now)
      (verdictNotification host alert.goal onTrack reason) with
  | error m =>
    refine ⟨[.notificationsCreate none (errorNotification host m)], rfl, ?_⟩
    rw [checkUserActivity_calls_notify host session m alert tab dataUrl blob analysis onTrack
      reason halert hen htab hcap hdec han hon hre hnc]
    simp
  | ok id =>
    by_cases hid : id = ""
    · refine ⟨[.showNotification (verdictNotification host alert.goal onTrack reason).title
        ⟨(verdictNotification host alert.goal onTrack reason).message,
          (verdictNotification host alert.goal onTrack reason).iconUrl, true⟩], rfl, ?_⟩
      simp [checkUserActivity, checkUserActivityBody, getActiveAlert, dataUrlToBlob, halert,
        hen, htab, hcap, hdec, han, hon, hre, hnc, hid]
    · refine ⟨[], rfl, ?_⟩
      simp [checkUserActivity, checkUserActivityBody, getActiveAlert, dataUrlToBlob, halert,
        hen, htab, hcap, hdec, han, hon, hre, hnc, hid]

theorem verdictNotification_message_quotes (host : Host) (goal : String)
    (onTrack reason : Option Json) :
    ∃ before after, (verdictNotification host goal onTrack reason).message =
      before ++ "\"" ++ goal ++ "\"" ++ after := by
  by_cases h : truthy onTrack = true
  · refine ⟨"Great job! Keep working on: ", "\n\n" ++ toStr host reason, ?_⟩
    have e1 : "Great job! Keep working on: \"" = "Great job! Keep working on: " ++ "\"" := by
      decide
    have e2 : "\"\n\n" = "\"" ++ "\n\n" := by decide
    simp only [verdictNotification, h, if_true]
    rw [e1, e2]
    simp only [String.append_assoc]
  · refine ⟨"You said you'd: ", "\n\n" ++ toStr host reason, ?_⟩
    have e1 : "You said you'd: \"" = "You said you'd: " ++ "\"" := by decide
    have e2 : "\"\n\n" = "\"" ++ "\n\n" := by decide
    have hf : truthy onTrack = false := by simpa using h
    simp only [verdictNotification, hf, Bool.false_eq_true, if_false]
    rw [e1, e2]
    simp only [String.append_assoc]

/-- The test `? :` of the code is false exactly on the falsy values. -/
theorem truthy_eq_false_iff (v : Option Json) : truthy v = false ↔ IsFalsy v := by
  unfold IsFalsy
  cases v with
  | none => simp [truthy]
  | some j =>
    cases j with
    | null => simp [truthy]
    | bool b => cases b <;> simp [truthy]
    | num mantissa exponent =>
      simp only [truthy, bne_eq_false_iff_eq, beq_iff_eq]
      constructor
      · intro h
        subst h
        exact Or.inr (Or.inr (Or.inr (Or.inl ⟨exponent, rfl⟩)))
      · rintro (h | h | h | ⟨e, h⟩ | h)
        · cases h
        · cases h
        · cases h
        · cases h; rfl
        · cases h
    | infinity negative => simp [truthy]
    | str text =>
      simp only [truthy, bne_eq_false_iff_eq, beq_iff_eq]
      constructor
      · intro h
        subst h
        exact Or.inr (Or.inr (Or.inr (Or.inr rfl)))
      · rintro (h | h | h | ⟨e, h⟩ | h)
        · cases h
        · cases h
        · cases h
        · cases h
        · cases h; rfl
    | arr items => simp [truthy]
    | obj members => simp [truthy]

/-- C12.  When the alert with goal `g` is enabled, a tab is active, capture and decoding
succeed and the analyzer returns a verdict with the text `reason`, `checkUserActivity` creates
exactly one verdict notification.  It has `requireInteraction = true`; its message contains
`g` between double quotes and ends with the reason.  When `onTrack` is falsy (`undefined`,
`null`, `false`, zero or the empty string) its title is `⚠️ Procrastination Detected` and its
message is `You said you'd: "g"`, two newlines and the reason; for every other `onTrack` its
title is `✅ On Track!` and its message is `Great job! Keep working on: "g"`, two newlines and
the reason. -/
theorem checkUserActivity_verdict_notification (host : Host) (session : Option Session)
    (alert : GoalAlert) (tab : Tab) (dataUrl : String) (blob : Blob) (verdict : Json)
    (onTrack : Option Json) (reason : String)
    (halert : host.storageGetActiveAlert = .ok (some alert)) (hen : alert.enabled = true)
    (htab : host.tabsQuery = .ok (some tab)) (hcap : host.captureVisibleTab = .ok dataUrl)
    (hdec : host.fetchBlob dataUrl = .ok blob)
    (han : (analyzeActivity host
      { userGoal := alert.goal, tabUrl := tab.url, tabTitle := tab.title, screenshot := blob }
      session).result = .ok verdict)
    (hon : verdict.getProp "onTrack" = .ok onTrack)
    (hre : verdict.getProp "reason" = .ok (some (.str reason))) :
    ∃ options, verdictNotifications (checkUserActivity host session).calls = [options] ∧
      options.requireInteraction = some true ∧
      (∃ before after, options.message = before ++ "\"" ++ alert.goal ++ "\"" ++ after) ∧
      (∃ before, options.message = before ++ reason) ∧
      (IsFalsy onTrack →
        options.title = "⚠️ Procrastination Detected" ∧
        options.message = "You said you'd: \"" ++ alert.goal ++ "\"\n\n" ++ reason) ∧
      (¬ IsFalsy onTrack →
        options.title = "✅ On Track!" ∧
        options.message =
          "Great job! Keep working on: \"" ++ alert.goal ++ "\"\n\n" ++ reason) := by
  obtain ⟨after, hafter, hcalls⟩ := checkUserActivity_calls_verdict host session alert tab
    dataUrl blob verdict onTrack (some (.str reason)) halert hen htab hcap hdec han hon hre
  refine ⟨verdictNotification host alert.goal onTrack (some (.str reason)), ?_, rfl,
    verdictNotification_message_quotes host alert.goal onTrack _, ?_, ?_, ?_⟩
  · rw [hcalls, verdictNotifications_append, verdictNotifications_append,
      verdictNotifications_append,
      verdictNotifications_modelCalls _ (analyzeActivity_calls host _ session), hafter]
    simp [verdictNotifications]
  · by_cases h : truthy onTrack = true
    · exact ⟨"Great job! Keep working on: \"" ++ alert.goal ++ "\"\n\n",
        by simp [verdictNotification, h, toStr]⟩
    · exact ⟨"You said you'd: \"" ++ alert.goal ++ "\"\n\n",
        by simp [verdictNotification, h, toStr]⟩
  · intro hfalsy
    have h : truthy onTrack = false := (truthy_eq_false_iff onTrack).mpr hfalsy
    constructor <;> simp [verdictNotification, h, toStr]
  · intro hnot
    have h : truthy onTrack = true := by
      cases ht : truthy onTrack with
      | true => rfl
      | false => exact absurd ((truthy_eq_false_iff onTrack).mp ht) hnot
    constructor <;> simp [verdictNotification, h, toStr]

/-- C12, witness: the goal `Study React` with the off-track verdict of the specification's
scenario (`onTrack: false`, `reason: Off-topic video`) and with an on-track verdict
(`onTrack: true`, `reason: React tutorial`). -/
theorem checkUserActivity_verdict_notification_witness :
    (∃ options, verdictNotifications (checkUserActivity hostOffTrack none).calls = [options] ∧
      options.requireInteraction = some true ∧
      options.title = "⚠️ Procrastination Detected" ∧
      options.message = "You said you'd: \"" ++ "Study React" ++ "\"\n\n" ++ "Off-topic video") ∧
    (∃ options, verdictNotifications (checkUserActivity hostOnTrack none).calls = [options] ∧
      options.requireInteraction = some true ∧
      options.title = "✅ On Track!" ∧
      options.message =
        "Great job! Keep working on: \"" ++ "Study React" ++ "\"\n\n" ++ "React tutorial") := by
  obtain ⟨o1, h1, h2, -, -, hfalse, -⟩ :=
    checkUserActivity_verdict_notification hostOffTrack none ⟨"Study React", true, 0⟩
      ⟨"https://youtube.com/watch?v=X", "Funny Cat"⟩ "data:image/png;base64,AAAA" ⟨"AAAA"⟩
      (.obj [("onTrack", .bool false), ("confidence", .num 85 0),
        ("reason", .str "Off-topic video")])
      (some (.bool false)) "Off-topic video" rfl rfl rfl rfl rfl rfl rfl rfl
  obtain ⟨o2, g1, g2, -, -, -, htrue⟩ :=
    checkUserActivity_verdict_notification hostOnTrack none ⟨"Study React", true, 0⟩
      ⟨"https://youtube.com/watch?v=X", "Funny Cat"⟩ "data:image/png;base64,AAAA" ⟨"AAAA"⟩
      (.obj [("onTrack", .bool true), ("confidence", .num 90 0),
        ("reason", .str "React tutorial")])
      (some (.bool true)) "React tutorial" rfl rfl rfl rfl rfl rfl rfl rfl
  have hfalsy : IsFalsy (some (.bool false)) := Or.inr (Or.inr (Or.inl rfl))
  have hnot : ¬ IsFalsy (some (.bool true)) := by
    rintro (h | h | h | ⟨e, h⟩ | h) <;> cases h
  exact ⟨⟨o1, h1, h2, (hfalse hfalsy).1, (hfalse hfalsy).2⟩,
    ⟨o2, g1, g2, (htrue hnot).1, (htrue hnot).2⟩⟩

/-- Every structurally valid verdict has properties `onTrack` and `reason` that can be read,
and its `reason` is a text. -/
theorem isAnalysisVerdict_props (v : Json) (h : isAnalysisVerdict v = true) :
    ∃ onTrack reason, v.getProp "onTrack" = .ok onTrack ∧
      v.getProp "reason" = .ok (some (.str reason)) := by
  cases v with
  | obj members =>
    simp only [isAnalysisVerdict, Bool.and_eq_true] at h
    obtain ⟨-, hreason⟩ := h
    cases hr : members.lookup "reason" with
    | none => rw [hr] at hreason; simp at hreason
    | some r =>
      cases r with
      | str reason => exact ⟨members.lookup "onTrack", reason, rfl, by simp [Json.getProp, hr]⟩
      | _ => rw [hr] at hreason; simp at hreason
  | _ => simp [isAnalysisVerdict] at h

/-! ## Starting and stopping the watcher -/

theorem alarmsNamed_alarmsClear (name : String) (browser : Browser) :
    alarmsNamed name (alarmsClear name browser) = [] := by
  simp only [alarmsNamed, alarmsClear, List.filter_filter]
  rw [List.filter_eq_nil_iff]
  intro alarm _
  simp

theorem alarmsNamed_alarmsCreate (name : String) (period : Nat) (browser : Browser) :
    alarmsNamed name (alarmsCreate name period browser) =
      [{ name := name, periodInMinutes := period }] := by
  have h := alarmsNamed_alarmsClear name browser
  simp only [alarmsNamed, alarmsClear] at h
  simp only [alarmsNamed, alarmsCreate, List.filter_append, h, List.nil_append]
  simp

/-- C13.  For every goal that is not blank and every interval `n` from 1 to 10, after
`handleStartWatching` and the `START_WATCHING` branch of the listener the stored settings are
`checkInterval = n`, `enabled = true`, the one alarm named `checkActivity` has
`periodInMinutes = n`, and the listener has replied `success = true`.  After
`handleStopWatching` and the `STOP_WATCHING` branch no alert is stored, the stored settings
have `enabled = false`, no alarm is named `checkActivity`, and the listener has replied
`success = true`. -/
theorem start_and_stop_watching (host : Host) (popup : Popup) (worker : Worker)
    (hgoal : String.mk (trim popup.goal.data) ≠ "") (hlow : 1 ≤ popup.interval)
    (hhigh : popup.interval ≤ 10) :
    ((handleStartWatching host popup worker).2.browser.settings =
        some { checkInterval := popup.interval, enabled := true } ∧
      alarmsNamed "checkActivity" (handleStartWatching host popup worker).2.browser =
        [{ name := "checkActivity", periodInMinutes := popup.interval }] ∧
      (handleStartWatching host popup worker).2.responses =
        worker.responses ++ [{ success := true }]) ∧
    ((handleStopWatching host popup worker).2.browser.activeAlert = none ∧
      (handleStopWatching host popup worker).2.browser.settings =
        some { checkInterval := popup.interval, enabled := false } ∧
      alarmsNamed "checkActivity" (handleStopWatching host popup worker).2.browser = [] ∧
      (handleStopWatching host popup worker).2.responses =
        worker.responses ++ [{ success := true }]) := by
  have hne : popup.interval ≠ 0 := by omega
  have h1 : ¬ ("START_WATCHING" = "STOP_WATCHING") := by decide
  have h2 : ¬ ("START_WATCHING" = "TEST_NOTIFICATION") := by decide
  have h3 : ¬ ("STOP_WATCHING" = "START_WATCHING") := by decide
  have h4 : ¬ ("STOP_WATCHING" = "TEST_NOTIFICATION") := by decide
  refine ⟨⟨?_, ?_, ?_⟩, ?_, ?_, ?_, ?_⟩
  · simp [handleStartWatching, hgoal, onMessage, onStartWatching, h1, h2, alarmsCreate,
      alarmsClear, setWatcherSettings, setActiveAlert]
  · simp only [handleStartWatching, hgoal, if_false, onMessage, onStartWatching, h1, h2,
      if_true, hne]
    exact alarmsNamed_alarmsCreate _ _ _
  · simp [handleStartWatching, hgoal, onMessage, onStartWatching, h1, h2]
  · simp [handleStopWatching, onMessage, onStopWatching, h3, h4, alarmsClear,
      setWatcherSettings, clearActiveAlert]
  · simp [handleStopWatching, onMessage, onStopWatching, h3, h4, alarmsClear,
      setWatcherSettings, clearActiveAlert]
  · simp only [handleStopWatching, onMessage, onStopWatching, h3, h4, if_false, if_true]
    exact alarmsNamed_alarmsClear _ _
  · simp [handleStopWatching, onMessage, onStopWatching, h3, h4]

/-- C13, witness: the goal of the scenario typed with blanks around it, the interval 5, and
a browser in which an alarm of 3 minutes is still registered. -/
theorem start_and_stop_watching_witness :
    ((handleStartWatching (sampleHost none) samplePopup sampleWorker).2.browser.settings =
        some { checkInterval := 5, enabled := true } ∧
      alarmsNamed "checkActivity"
        (handleStartWatching (sampleHost none) samplePopup sampleWorker).2.browser =
        [{ name := "checkActivity", periodInMinutes := 5 }] ∧
      (handleStartWatching (sampleHost none) samplePopup sampleWorker).2.responses =
        [] ++ [{ success := true }]) ∧
    ((handleStopWatching (sampleHost none) samplePopup sampleWorker).2.browser.activeAlert = none ∧
      (handleStopWatching (sampleHost none) samplePopup sampleWorker).2.browser.settings =
        some { checkInterval := 5, enabled := false } ∧
      alarmsNamed "checkActivity"
        (handleStopWatching (sampleHost none) samplePopup sampleWorker).2.browser = [] ∧
      (handleStopWatching (sampleHost none) samplePopup sampleWorker).2.responses =
        [] ++ [{ success := true }]) :=
  start_and_stop_watching (sampleHost none) samplePopup sampleWorker (by decide) (by decide)
    (by decide)

end ProcrastinationWatcher
